import Mathlib

/-!
Shallow embedding of the decode-and-unify pipeline of the Trabalho_BD
repository (MPCORB/NEO asteroid-catalog importer).

The embedding translates, from the Python source:
  * `processor_mpcorb/utils.py`   : packed-date and packed-designation codecs,
    `calculate_tp`;
  * `processor_mpcorb/processor.py`: the per-record part of
    `process_chunk_worker` (derived elements, hex-flag decoding, tp masks)
    and the sequential batch-resolution loop of `AsteroidProcessor.process`;
  * `merger/merger.py`            : `DataMerger._create_match_key`,
    `merge_asteroids`, `_update_ids`, `merge_orbits`.

Modelling conventions, stated once:
  * Python strings are Lean `String`/`List Char`; `str.strip` is modelled over
    the ASCII whitespace set (the catalog data is ASCII).
  * `Char.toUpper`/`Char.isDigit` model the Python methods on the ASCII range.
  * pandas cells read with `dtype=str` are either a string or NaN; at the CSV
    boundary NaN and the empty cell coincide, so a missing cell is modelled as
    `""` where the code immediately applies `fillna("")`, and as `Option String`
    where the code distinguishes NaN (e.g. `isinstance(x, str)` checks,
    `pd.notna`).
  * IEEE-754 doubles are modelled as exact rationals `ℚ`.
  * A Python exception that the code does not catch is an `Except.error`.
-/

namespace TBD

/-! ### Python string primitives -/

/-- Whitespace stripped by Python `str.strip()` (ASCII part). -/
def isPySpace (c : Char) : Bool :=
  c = ' ' || c = '\t' || c = '\n' || c = '\r' || c = '\x0b' || c = '\x0c'

/-- `str.strip()` on a character list. -/
def trimChars (l : List Char) : List Char :=
  ((l.dropWhile isPySpace).reverse.dropWhile isPySpace).reverse

/-- `str.strip()`. -/
def pyStrip (s : String) : String :=
  ⟨trimChars s.data⟩

/-- `str.lstrip('0')`. -/
def stripLeadZeros (s : String) : String :=
  ⟨s.data.dropWhile (· = '0')⟩

/-- `str.upper()` (ASCII). -/
def pyUpper (s : String) : String :=
  ⟨s.data.map Char.toUpper⟩

/-- `str.isdigit()` (ASCII): nonempty and all decimal digits. -/
def pyIsDigit (l : List Char) : Bool :=
  !l.isEmpty && l.all Char.isDigit

/-- Value of one digit in base 10 or 16, as accepted by Python `int(s, base)`. -/
def pyDigitVal? (base : Nat) (c : Char) : Option Nat :=
  if c.isDigit then
    let v := c.toNat - 48
    if v < base then some v else none
  else if base = 16 && 'a' ≤ c && c ≤ 'f' then some (c.toNat - 97 + 10)
  else if base = 16 && 'A' ≤ c && c ≤ 'F' then some (c.toNat - 65 + 10)
  else none

/-- Digit run after the first digit: `(["_"] digit)*` (Python allows single
underscores between digits). -/
def pyDigitsAux (base : Nat) : List Char → Nat → Option Nat
  | [], acc => some acc
  | '_' :: c :: rest, acc =>
    match pyDigitVal? base c with
    | some v => pyDigitsAux base rest (acc * base + v)
    | none => none
  | c :: rest, acc =>
    match pyDigitVal? base c with
    | some v => pyDigitsAux base rest (acc * base + v)
    | none => none

/-- Digit sequence `digit (["_"] digit)*`. -/
def pyDigitSeq? (base : Nat) : List Char → Option Nat
  | [] => none
  | c :: rest =>
    match pyDigitVal? base c with
    | some v => pyDigitsAux base rest v
    | none => none

/-- After a `0x`/`0X` prefix Python allows one optional underscore before the
first digit. -/
def pyAfterHexPref? : List Char → Option Nat
  | '_' :: rest => pyDigitSeq? 16 rest
  | l => pyDigitSeq? 16 l

/-- Magnitude part of `int(s, 16)`: optional `0x`/`0X` prefix. -/
def pyHexBody? : List Char → Option Nat
  | '0' :: 'x' :: rest => pyAfterHexPref? rest
  | '0' :: 'X' :: rest => pyAfterHexPref? rest
  | l => pyDigitSeq? 16 l

/-- Magnitude part of `int(s, base)` for the two bases the source uses. -/
def pyIntBody? (base : Nat) (l : List Char) : Option Nat :=
  if base = 16 then pyHexBody? l else pyDigitSeq? base l

/-- Python `int(s, base)` (base 10 or 16): surrounding whitespace, optional
sign, optional `0x` prefix for base 16, underscore separators.  `none` means
the call raises `ValueError`. -/
def pyInt? (base : Nat) (s : String) : Option Int :=
  match trimChars s.data with
  | '+' :: rest => (pyIntBody? base rest).map Int.ofNat
  | '-' :: rest => (pyIntBody? base rest).map (fun n => -(n : Int))
  | l => (pyIntBody? base l).map Int.ofNat

/-- Equality of modelled results (`Except` values) is decidable, so concrete
runs can be checked by evaluation. -/
instance exceptDecidableEq {α β : Type} [DecidableEq α] [DecidableEq β] :
    DecidableEq (Except α β) := fun x y =>
  match x, y with
  | .error a, .error b =>
    if h : a = b then .isTrue (by rw [h]) else .isFalse (by intro hc; cases hc; exact h rfl)
  | .error _, .ok _ => .isFalse (by intro hc; cases hc)
  | .ok _, .error _ => .isFalse (by intro hc; cases hc)
  | .ok a, .ok b =>
    if h : a = b then .isTrue (by rw [h]) else .isFalse (by intro hc; cases hc; exact h rfl)

/-- Numeric value of an all-digit character list. -/
def natOfDigits (l : List Char) : Nat :=
  l.foldl (fun a c => a * 10 + (c.toNat - 48)) 0

/-- Zero-pad a natural number to at least two digits (`f"{n:02d}"` for `n ≥ 0`). -/
def pad2 (n : Nat) : String :=
  if n < 10 then "0" ++ toString n else toString n

/-- `f"{v:02d}"` for a possibly negative value: Python counts the sign towards
the minimum field width, so `-5` prints as `"-5"` and `-12` as `"-12"`. -/
def fmt02d (v : Int) : String :=
  if v < 0 then "-" ++ toString (-v) else pad2 v.toNat

/-- Zero-pad to at least four digits (`%Y` of `strftime`). -/
def pad4 (n : Nat) : String :=
  if n < 10 then "000" ++ toString n
  else if n < 100 then "00" ++ toString n
  else if n < 1000 then "0" ++ toString n
  else toString n

/-- Zero-pad to exactly six digits (`%f` of `strftime`, `n < 10^6`). -/
def pad6 (n : Nat) : String :=
  if n < 10 then "00000" ++ toString n
  else if n < 100 then "0000" ++ toString n
  else if n < 1000 then "000" ++ toString n
  else if n < 10000 then "00" ++ toString n
  else if n < 100000 then "0" ++ toString n
  else toString n

/-! ### Lookup tables from `processor_mpcorb/config.py` -/

/-- `CENTURY_MAP = {'I': 1800, 'J': 1900, 'K': 2000}`. -/
def CENTURY_MAP : List (Char × Nat) :=
  [('I', 1800), ('J', 1900), ('K', 2000)]

/-- `MONTH_MAP = {'A': 10, 'B': 11, 'C': 12}`. -/
def MONTH_MAP : List (Char × Nat) :=
  [('A', 10), ('B', 11), ('C', 12)]

/-- `DAY_MAP_OFFSET = 10`. -/
def DAY_MAP_OFFSET : Nat := 10

/-- `PLANET_MAP = {'J': 'Jupiter', 'S': 'Saturn', 'U': 'Uranus', 'N': 'Neptune'}`. -/
def PLANET_MAP : List (Char × String) :=
  [('J', "Jupiter"), ('S', "Saturn"), ('U', "Uranus"), ('N', "Neptune")]

/-- `CENTURY_PREFIX_MAP = {'I': '18', 'J': '19', 'K': '20'}`. -/
def CENTURY_PREFIX_MAP : List (Char × String) :=
  [('I', "18"), ('J', "19"), ('K', "20")]

/-- `BASE62_MAP` built from `"0-9A-Za-z"`; `_get_base62` defaults missing
characters to 0. -/
def base62Val (c : Char) : Nat :=
  if c.isDigit then c.toNat - 48
  else if 'A' ≤ c && c ≤ 'Z' then c.toNat - 65 + 10
  else if 'a' ≤ c && c ≤ 'z' then c.toNat - 97 + 36
  else 0

/-! ### `unpack_packed_date` (`processor_mpcorb/utils.py`)

```python
century_base = CENTURY_MAP.get(packed_date[0])
if century_base is None: return ""
year = century_base + int(packed_date[1:3])
month = MONTH_MAP.get(packed_date[3]) or int(packed_date[3])
day_char = packed_date[4]
day = int(day_char) if day_char.isdigit() else ord(day_char) - ord('A') + 10
return f"{year}-{month:02d}-{day:02d}"
```
with `except (ValueError, KeyError, IndexError): return ""`.  Note: the code
performs no range validation on `month` or `day`. -/

/-- `MONTH_MAP.get(month_char) or int(month_char)`: the mapped month for the
letters `A`/`B`/`C` (all map values are truthy), else Python `int` of the
character; `none` is the uncaught-then-caught `ValueError`. -/
def monthOf? (c : Char) : Option Int :=
  match MONTH_MAP.lookup c with
  | some m => some (m : Int)
  | none => pyInt? 10 ⟨[c]⟩

/-- `unpack_packed_date` on the character list of the input (already known to
be a string of length ≥ 5; shorter inputs and non-strings return `""` in the
wrapper below). -/
def unpackPackedDateChars : List Char → String
  | c0 :: c1 :: c2 :: c3 :: c4 :: _ =>
    match CENTURY_MAP.lookup c0 with
    | none => ""
    | some centuryBase =>
      match pyInt? 10 ⟨[c1, c2]⟩ with
      | none => ""                       -- ValueError from int(packed_date[1:3])
      | some yy =>
        let year : Int := (centuryBase : Int) + yy
        match monthOf? c3 with
        | none => ""                     -- ValueError from int(month_char)
        | some month =>
          let day : Int :=
            if c4.isDigit then (c4.toNat - 48 : Nat)
            else (c4.toNat : Int) - 65 + (DAY_MAP_OFFSET : Int)
          toString year ++ "-" ++ fmt02d month ++ "-" ++ fmt02d day
  | _ => ""

/-- `unpack_packed_date`: `none` input models a non-string (NaN) cell. -/
def unpackPackedDate (x : Option String) : String :=
  match x with
  | none => ""
  | some s => if s.data.length < 5 then "" else unpackPackedDateChars s.data

/-! ### `unpack_designation` (`processor_mpcorb/utils.py`) -/

/-- Cycle-count decoding for the standard provisional branch:
`int(cc)` if both characters are digits, else
`_get_base62(cc[0]) * 10 + int(cc[1])`.  `Except.error` models the uncaught
`ValueError` when `cc[1]` is not a digit (the function has no `try`). -/
def cycleCount? (d1 d2 : Char) : Except Unit Nat :=
  if pyIsDigit [d1, d2] then
    .ok (natOfDigits [d1, d2])
  else
    match pyInt? 10 ⟨[d2]⟩ with
    | some v => .ok (base62Val d1 * 10 + v.toNat)
    | none => .error ()

/-- 7-character standard provisional designation body. -/
def provisional7 (c0 c1 c2 c3 c4 c5 c6 : Char) (packed : String) : Except Unit String :=
  match CENTURY_PREFIX_MAP.lookup c0 with
  | none => .ok packed                   -- falls through to `return packed`
  | some centuryPref =>
    let year := centuryPref ++ ⟨[c1, c2]⟩
    let halfMonth : String := ⟨[c3]⟩
    match cycleCount? c4 c5 with
    | .error e => .error e
    | .ok cycleN =>
      if c6 = '0' then
        .ok (year ++ " " ++ halfMonth ++ toString cycleN)
      else if 'a' ≤ c6 && c6 ≤ 'z' then
        .ok (year ++ " " ++ halfMonth ++ toString cycleN ++ "-" ++ ⟨[c6.toUpper]⟩)
      else
        let suffix := if cycleN > 0 then toString cycleN else ""
        .ok (year ++ " " ++ halfMonth ++ ⟨[c6]⟩ ++ suffix)

/-- `unpack_designation`.  `Except.error` models an uncaught `ValueError`
(possible only in the 7-character cycle-count branch). -/
def unpackDesignation (x : String) : Except Unit String :=
  let packed := pyStrip x
  let l := packed.data
  -- 1. Purely numeric
  if pyIsDigit l then .ok (toString (natOfDigits l))
  else
    match l with
    -- 2. Permanent (5 chars)
    | [c0, c1, c2, c3, c4] =>
      if c0 = '~' then
        let value := [c1, c2, c3, c4].foldl (fun v c => v * 62 + base62Val c) 0
        .ok (toString (value + 620000))
      else if c0.isAlpha && pyIsDigit [c1, c2, c3, c4] then
        -- Satellites: `packed.endswith('S') and first_char in PLANET_MAP`
        if c4 = 'S' && (PLANET_MAP.lookup c0).isSome then
          .ok (((PLANET_MAP.lookup c0).getD "") ++ " " ++ toString (natOfDigits [c1, c2, c3]))
        else
          -- Asteroids: base-62 leading letter
          .ok (toString (base62Val c0 * 10000 + natOfDigits [c1, c2, c3, c4]))
      else .ok packed
    -- 3. Provisional (7 chars)
    | [c0, c1, c2, c3, c4, c5, c6] =>
      if ⟨[c0, c1, c2]⟩ = ("PLS" : String) then .ok (⟨[c3, c4, c5, c6]⟩ ++ " P-L")
      else if ⟨[c0, c1, c2]⟩ = ("T1S" : String) then .ok (⟨[c3, c4, c5, c6]⟩ ++ " T-1")
      else if ⟨[c0, c1, c2]⟩ = ("T2S" : String) then .ok (⟨[c3, c4, c5, c6]⟩ ++ " T-2")
      else if ⟨[c0, c1, c2]⟩ = ("T3S" : String) then .ok (⟨[c3, c4, c5, c6]⟩ ++ " T-3")
      else provisional7 c0 c1 c2 c3 c4 c5 c6 packed
    | _ => .ok packed

/-! ### Float parsing (`pd.to_numeric(..., errors='coerce')`) -/

/-- `pd.to_numeric(errors='coerce')` on a string cell: optional surrounding
whitespace, optional sign, decimal digits with optional fraction, optional
exponent.  `none` models NaN (which `fillna(0)` then replaces).  The special
literals `inf`/`nan` do not occur in these catalogs and are not modelled. -/
def parseFloat? (s : String) : Option ℚ :=
  let l := trimChars s.data
  let (sgn, l1) : ℚ × List Char :=
    match l with
    | '+' :: r => (1, r)
    | '-' :: r => (-1, r)
    | r => (1, r)
  let (ip, l2) := l1.span Char.isDigit
  let (fp, l3) : List Char × List Char :=
    match l2 with
    | '.' :: r => r.span Char.isDigit
    | r => ([], r)
  if ip.isEmpty && fp.isEmpty then none
  else
    let mant : ℚ := (natOfDigits (ip ++ fp) : ℚ) / (10 : ℚ) ^ fp.length
    match l3 with
    | [] => some (sgn * mant)
    | e :: r =>
      if e = 'e' || e = 'E' then
        let (esgn, r1) : Int × List Char :=
          match r with
          | '+' :: r' => (1, r')
          | '-' :: r' => (-1, r')
          | r' => (1, r')
        let (ed, r2) := r1.span Char.isDigit
        if ed.isEmpty || !r2.isEmpty then none
        else some (sgn * mant * (10 : ℚ) ^ (esgn * (natOfDigits ed : Int)))
      else none

/-- Half-to-even rounding to an integer (`np.round` at scale 1; also the
microsecond rounding of `timedelta(days=float)`). -/
def roundHalfEven (x : ℚ) : Int :=
  let f := Int.floor x
  let r : ℚ := x - f
  if r < 1 / 2 then f
  else if r > 1 / 2 then f + 1
  else if f % 2 = 0 then f else f + 1

/-- `np.round(x, p)` as an exact rational. -/
def roundQ (p : Nat) (x : ℚ) : ℚ :=
  (roundHalfEven (x * (10 : ℚ) ^ p) : ℚ) / (10 : ℚ) ^ p

/-! ### Proleptic-Gregorian date arithmetic (for `datetime`/`pandas`) -/

/-- Days since 1970-01-01 of a civil date (Gregorian, Hinnant's algorithm,
as used by `datetime.date.toordinal` up to the epoch shift). -/
def daysFromCivil (y : Int) (m d : Nat) : Int :=
  let y' : Int := if m ≤ 2 then y - 1 else y
  let era : Int := (if 0 ≤ y' then y' else y' - 399) / 400
  let yoe : Int := y' - era * 400
  let doy : Int := (153 * ((m : Int) + (if 2 < m then -3 else 9)) + 2) / 5 + (d : Int) - 1
  let doe : Int := yoe * 365 + yoe / 4 - yoe / 100 + doy
  era * 146097 + doe - 719468

/-- Civil date from days since 1970-01-01 (inverse of `daysFromCivil`). -/
def civilFromDays (z0 : Int) : Int × Nat × Nat :=
  let z : Int := z0 + 719468
  let era : Int := (if 0 ≤ z then z else z - 146096) / 146097
  let doe : Nat := (z - era * 146097).toNat
  let yoe : Nat := (doe - doe / 1460 + doe / 36524 - doe / 146096) / 365
  let y : Int := (yoe : Int) + era * 400
  let doy : Nat := doe - (365 * yoe + yoe / 4 - yoe / 100)
  let mp : Nat := (5 * doy + 2) / 153
  let d : Nat := doy - (153 * mp + 2) / 5 + 1
  let m : Nat := if mp < 10 then mp + 3 else mp - 9
  (if m ≤ 2 then y + 1 else y, m, d)

def isLeapYear (y : Int) : Bool :=
  y % 4 = 0 && (y % 100 ≠ 0 || y % 400 = 0)

def daysInMonth (y : Int) (m : Nat) : Nat :=
  if m = 2 then (if isLeapYear y then 29 else 28)
  else if m = 4 || m = 6 || m = 9 || m = 11 then 30
  else 31

/-- `datetime.strptime(s, "%Y-%m-%d")` / `pd.to_datetime(s, errors='coerce')`
on an ISO-like date: three dash-separated digit fields, real calendar
validation (`datetime` raises `ValueError` on month 0, day 32, Feb 30, ...).
`pd.Timestamp`'s narrower 1677–2262 range is not modelled: every epoch the
date codec can produce lies inside it. -/
def strptimeYmd? (s : String) : Option (Int × Nat × Nat) :=
  match s.data.splitOn '-' with
  | [ys, ms, ds] =>
    if pyIsDigit ys && pyIsDigit ms && pyIsDigit ds
        && ys.length ≤ 4 && ms.length ≤ 2 && ds.length ≤ 2 then
      let y := natOfDigits ys
      let m := natOfDigits ms
      let d := natOfDigits ds
      if 1 ≤ y && y ≤ 9999 && 1 ≤ m && m ≤ 12 && 1 ≤ d && d ≤ daysInMonth y m then
        some ((y : Int), m, d)
      else none
    else none
  | _ => none

def USPERDAY : Int := 86400000000

/-- Format a timestamp given in microseconds since 1970-01-01 as
`%Y-%m-%d %H:%M:%S.%f`; `""` outside `datetime`'s year range 1–9999
(`OverflowError` caught in `calculate_tp`). -/
def formatTpUs (totalUs : Int) : String :=
  let day := totalUs.fdiv USPERDAY
  let us := (totalUs - day * USPERDAY).toNat
  let c := civilFromDays day
  let y := c.1
  if 1 ≤ y && y ≤ 9999 then
    let sec := us / 1000000
    let micro := us % 1000000
    pad4 y.toNat ++ "-" ++ pad2 c.2.1 ++ "-" ++ pad2 c.2.2 ++ " " ++
      pad2 (sec / 3600) ++ ":" ++ pad2 (sec % 3600 / 60) ++ ":" ++ pad2 (sec % 60) ++
      "." ++ pad6 micro
  else ""

/-- `calculate_tp` (`processor_mpcorb/utils.py`): time of perihelion from an
ISO epoch string, mean anomaly and mean motion, `""` on any failure.
`datetime.timedelta(days=off)` rounds `off` to microseconds half-to-even. -/
def calculateTp (epochStr : String) (ma n : ℚ) : String :=
  if epochStr = "" || n = 0 then ""          -- `if not epoch_str or not mean_motion`
  else
    match strptimeYmd? epochStr with
    | none => ""                             -- ValueError caught
    | some ymd =>
      formatTpUs (daysFromCivil ymd.1 ymd.2.1 ymd.2.2 * USPERDAY
        - roundHalfEven (ma / n * (USPERDAY : ℚ)))

/-- Fast tp path of the worker: `epoch - pd.to_timedelta(off, unit='D')`,
formatted with `%f` (nanosecond resolution truncated to microseconds).
`pd.Timestamp` overflow outside the int64-nanosecond range (which the
106000-day clamp does not fully preclude) would raise in the worker and is
not modelled. -/
def fastTp (epochDays : Int) (off : ℚ) : String :=
  let ns := epochDays * (86400000000000 : Int) - roundHalfEven (off * (86400000000000 : ℚ))
  formatTpUs (ns.fdiv 1000)

/-- The worker's tp assembly (`process_chunk_worker`, steps 6):
`offset_days = ma / n` is NaN when `n = 0`;
`valid_mask  = |offset| ≤ 106000 ∧ epoch parsed ∧ offset not NaN`;
`has_data    = epoch_iso ≠ "" ∧ mean_anomaly cell not NaN ∧ n ≠ 0`;
fallback (`calculate_tp`) on `¬valid ∧ has_data`, `""` elsewhere. -/
def tpField (epochIso : String) (maRaw : Option String) (ma n : ℚ) : String :=
  if n = 0 then ""                           -- NaN offset: no mask selects the row
  else
    let off := ma / n
    match strptimeYmd? epochIso with
    | some ymd =>
      if |off| ≤ 106000 then fastTp (daysFromCivil ymd.1 ymd.2.1 ymd.2.2) off
      else if epochIso ≠ "" && maRaw.isSome then calculateTp epochIso ma n
      else ""
    | none =>
      if epochIso ≠ "" && maRaw.isSome then calculateTp epochIso ma n
      else ""

/-! ### Hex-flag decoding (`process_chunk_worker`, step 4) -/

/-- `ORBIT_TYPES` (`config.py`). -/
def ORBIT_TYPES : List (Nat × String) :=
  [(1, "Atira"), (2, "Aten"), (3, "Apollo"), (4, "Amor"),
   (5, "Object with q < 1.665 AU"), (6, "Hungaria"), (7, "Phocaea"),
   (8, "Hilda"), (9, "Jupiter Trojan"), (10, "Distant object")]

def MASK_ORBIT_TYPE : Nat := 0x3F
def MASK_NEO : Nat := 0x0800
def MASK_1KM_NEO : Nat := 0x1000
def MASK_1_OPPOSITION : Nat := 0x2000
def MASK_CRITICAL_LIST : Nat := 0x4000
def MASK_PHA : Nat := 0x8000

/-- `int(x, 16) if isinstance(x, str) and len(x) == 4 else 0`: a NaN cell or a
string of length ≠ 4 gives 0; a 4-character string is parsed, and a parse
failure is an uncaught `ValueError` (the whole batch fails). -/
def hexFlagsVal (x : Option String) : Except Unit Int :=
  match x with
  | none => .ok 0
  | some s =>
    if s.data.length = 4 then
      match pyInt? 16 s with
      | some v => .ok v
      | none => .error ()
    else .ok 0

/-- The int32 bit pattern (`np.array(..., dtype=np.int32)`). -/
def flagBits (x : Option String) : Except Unit Nat :=
  (hexFlagsVal x).map fun v => (v % (2 : Int) ^ 32).toNat

/-! ### The per-record chunk transform (`process_chunk_worker`)

The worker is vectorized but row-independent in every decoded column; the
embedding is its per-record restriction to the columns the claims touch
(pass-through columns such as the orbital-element strings and the
`designation_full` number/name split are omitted). -/

structure RawRec where
  designation : Option String
  designationFull : Option String
  epoch : Option String
  eccentricity : Option String
  semiMajorAxis : Option String
  meanMotion : Option String
  meanAnomaly : Option String
  hexFlags : Option String
  computer : Option String
deriving Repr, DecidableEq, Inhabited

structure DecRec where
  objId : String
  epochIso : String
  q : ℚ
  ad : ℚ
  per : ℚ
  orbitClass : Option String
  isNeoFlag : Bool
  isPhaFlag : Bool
  is1kmNeo : Bool
  isCritical : Bool
  isOppEarlier : Bool
  tp : String
  computer : Option String
deriving Repr, DecidableEq, Inhabited

/-- `pd.to_numeric(chunk['eccentricity'], errors='coerce').fillna(0)`. -/
def eFloat (r : RawRec) : ℚ :=
  (r.eccentricity.bind parseFloat?).getD 0

def aFloat (r : RawRec) : ℚ :=
  (r.semiMajorAxis.bind parseFloat?).getD 0

def nFloat (r : RawRec) : ℚ :=
  (r.meanMotion.bind parseFloat?).getD 0

def maFloat (r : RawRec) : ℚ :=
  (r.meanAnomaly.bind parseFloat?).getD 0

/-- `np.round(a * (1.0 - e), 8)` (perihelion distance). -/
def qVal (r : RawRec) : ℚ :=
  roundQ 8 (aFloat r * (1 - eFloat r))

/-- `np.round(a * (1.0 + e), 8)` (aphelion distance). -/
def adVal (r : RawRec) : ℚ :=
  roundQ 8 (aFloat r * (1 + eFloat r))

/-- `np.round(np.divide(360.0, n, out=zeros, where=n!=0), 2)` (period). -/
def perVal (r : RawRec) : ℚ :=
  roundQ 2 (if nFloat r = 0 then 0 else 360 / nFloat r)

def epochIsoOf (r : RawRec) : String :=
  unpackPackedDate r.epoch

def tpOf (r : RawRec) : String :=
  tpField (epochIsoOf r) r.meanAnomaly (maFloat r) (nFloat r)

/-- Step 2 of the worker: numeric designations pass through verbatim, the
rest go through the codec. -/
def objIdOf (r : RawRec) : Except Unit String :=
  let desig := r.designation.getD ""
  if pyIsDigit desig.data then .ok desig else unpackDesignation desig

/-- One row of `process_chunk_worker` (the row is known to have a
designation: `dropna(subset=['designation'])` ran first).  The two fallible
steps are the designation codec (step 2) and the hex parse (step 4); either
exception fails the whole chunk. -/
def transformRecord (r : RawRec) : Except Unit DecRec :=
  match objIdOf r, flagBits r.hexFlags with
  | .error e, _ => .error e
  | .ok _, .error e => .error e
  | .ok objId, .ok bits =>
    .ok {
      objId := objId
      epochIso := epochIsoOf r
      q := qVal r, ad := adVal r, per := perVal r
      orbitClass := ORBIT_TYPES.lookup (bits &&& MASK_ORBIT_TYPE)
      isNeoFlag := bits &&& MASK_NEO ≠ 0
      isPhaFlag := bits &&& MASK_PHA ≠ 0
      is1kmNeo := bits &&& MASK_1KM_NEO ≠ 0
      isCritical := bits &&& MASK_CRITICAL_LIST ≠ 0
      isOppEarlier := bits &&& MASK_1_OPPOSITION ≠ 0
      tp := tpOf r
      computer := r.computer }

/-- The whole worker on one chunk: drop rows with no designation, transform
each; any raised exception fails the chunk. -/
def workerChunk (chunk : List RawRec) : Except Unit (List DecRec) :=
  (chunk.filter (fun r => r.designation.isSome)).mapM transformRecord

/-! ### The streaming orchestrator (`AsteroidProcessor.process`)

`handle_result` resolves batches strictly in submission order (the driver pops
the oldest outstanding future both under backpressure and when draining), so
the run is a left fold over the batch list.  A worker exception surfaces at
`future.result()`, the first statement of the `try` block, before any
run-scoped state is touched. -/

/-- First-occurrence deduplication (`pandas.Series.unique` order). -/
def firstDedup {α : Type} [DecidableEq α] (l : List α) : List α :=
  l.reverse.dedup.reverse

/-- `SOFTWARE_PREFIXES = ('MPC',)`, `SOFTWARE_SPECIFIC_NAMES = {'orbfit'}`. -/
def isSoftwareName (s : String) : Bool :=
  s.startsWith "MPC" || s = "orbfit"

/-- The run-scoped mutable state of `AsteroidProcessor`.  Python dicts keep
insertion order: association lists appended on first encounter. -/
structure ProcState where
  seenIds : List String
  nextAsteroidId : Nat
  nextObservationId : Nat
  softwareMap : List (String × Nat)
  nextSoftwareId : Nat
  astronomerMap : List (String × Nat)
  nextAstronomerId : Nat
  classMap : List (String × Nat)
  nextClassId : Nat
deriving Repr, DecidableEq

def initState : ProcState :=
  ⟨[], 1, 1, [], 1, [], 1, [], 1⟩

/-- `if name_str not in map: map[name_str] = next; next += 1`. -/
def insertIfAbsent (m : List (String × Nat)) (next : Nat) (key : String) :
    List (String × Nat) × Nat :=
  if (m.lookup key).isSome then (m, next) else (m ++ [(key, next)], next + 1)

/-- One name of the `_map_computers_and_astronomers` loop: strip; skip empty;
classify by the software heuristic and insert into the matching dictionary. -/
def refMapStep (st : ProcState) (name : String) : ProcState :=
  let nameStr := pyStrip name
  if nameStr = "" then st
  else if isSoftwareName nameStr then
    let p := insertIfAbsent st.softwareMap st.nextSoftwareId nameStr
    { st with softwareMap := p.1, nextSoftwareId := p.2 }
  else
    let p := insertIfAbsent st.astronomerMap st.nextAstronomerId nameStr
    { st with astronomerMap := p.1, nextAstronomerId := p.2 }

/-- `_map_computers_and_astronomers`, state part: iterate the unique non-NaN
`computer` values in first-occurrence order. -/
def updateRefMaps (names : List (Option String)) (st : ProcState) : ProcState :=
  (firstDedup (names.filterMap id)).foldl refMapStep st

/-- One class of the `_map_classes` loop (no strip; an unmapped orbit-class
cell is NaN, not empty). -/
def classMapStep (st : ProcState) (name : String) : ProcState :=
  if name = "" then st
  else
    let p := insertIfAbsent st.classMap st.nextClassId name
    { st with classMap := p.1, nextClassId := p.2 }

/-- `_map_classes`, state part. -/
def updateClassMaps (vals : List (Option String)) (st : ProcState) : ProcState :=
  (firstDedup (vals.filterMap id)).foldl classMapStep st

/-- One emitted asteroid row (the identifier-bearing part). -/
structure Emitted where
  objId : String
  astId : Nat
  obsId : Nat
deriving Repr, DecidableEq

/-- The body of `handle_result` on a successfully transformed chunk:
drop records whose `obj_id` is already in `seen_ids` (within-chunk duplicates
are not filtered against each other), add survivors to the set, assign dense
asteroid ids, update the reference dictionaries, assign observation ids
(`_write_tables`).  An empty survivor set returns early, which coincides with
running the updates on the empty list. -/
def resolveChunk (st : ProcState) (chunk : List DecRec) : ProcState × List Emitted :=
  let survivors := chunk.filter (fun r => !st.seenIds.contains r.objId)
  let n := survivors.length
  let st1 := { st with
    seenIds := st.seenIds ++ survivors.map (·.objId)
    nextAsteroidId := st.nextAsteroidId + n }
  let st2 := updateRefMaps (survivors.map (·.computer)) st1
  let st3 := updateClassMaps (survivors.map (·.orbitClass)) st2
  let st4 := { st3 with nextObservationId := st3.nextObservationId + n }
  (st4,
    (survivors.zip ((List.range' st.nextAsteroidId n).zip
      (List.range' st3.nextObservationId n))).map
      (fun p => ⟨p.1.objId, p.2.1, p.2.2⟩))

/-- The resolution loop over the worker results, in submission order.
`Except.error` is a chunk whose worker raised: `handle_result` catches it at
`future.result()` and returns, leaving every piece of state untouched. -/
def runBatches (st : ProcState) : List (Except Unit (List DecRec)) → ProcState × List Emitted
  | [] => (st, [])
  | .error _ :: bs => runBatches st bs
  | .ok chunk :: bs =>
    let p := resolveChunk st chunk
    let q := runBatches p.1 bs
    (q.1, p.2 ++ q.2)

/-! ### The cross-source merger (`merger/merger.py`)

Tables are modelled at the CSV boundary, where a NaN cell and an empty cell
coincide: every field is a `String` and `""` is the missing value.  Pandas
emits `combine_first`/`groupby` results in sorted key order and requires
unique keys per source in `combine_first` (duplicated index labels raise on
reindexing); the embedding keeps first-occurrence key order and groups
duplicates, which the proved properties do not depend on. -/

/-- An entity (asteroid) row, restricted to the identity-bearing columns plus
`diameter` as the representative payload column (`merge_asteroids` treats all
non-key columns uniformly). -/
structure Entity where
  idAst : String
  number : String
  pdes : String
  name : String
  diameter : String
deriving Repr, DecidableEq, Inhabited

/-- `number.fillna("").astype(str).str.strip().str.lstrip('0')`. -/
def normNumber (s : String) : String :=
  stripLeadZeros (pyStrip s)

/-- `pdes/name.fillna("").astype(str).str.strip().str.upper()`. -/
def normText (s : String) : String :=
  pyUpper (pyStrip s)

/-- `DataMerger._create_match_key` on one row: normalize the three identity
columns, then `np.select([has_number, has_pdes], ["NUM_"+number,
"DES_"+pdes], default="NAM_"+name)` — conditions evaluated in order. -/
def matchKey (e : Entity) : String :=
  if normNumber e.number ≠ "" then "NUM_" ++ normNumber e.number
  else if normText e.pdes ≠ "" then "DES_" ++ normText e.pdes
  else "NAM_" ++ normText e.name

/-- `df[df['match_key'] != "NAM_"]` (merge-candidacy filter, lines 113–114). -/
def eligibleRows (l : List Entity) : List Entity :=
  l.filter (fun e => matchKey e ≠ "NAM_")

/-- Per-column fill: the first non-missing value (`combine_first` /
`groupby().first()` semantics at the CSV boundary). -/
def firstNonEmpty (l : List String) : String :=
  (l.find? (fun s => s ≠ "")).getD ""

/-- Column-wise combination of all rows sharing one match key, primary source
first (`combine_first`: the primary value wins, gaps fill from the secondary). -/
def combineEntities (g : List Entity) : Entity :=
  ⟨firstNonEmpty (g.map (·.idAst)), firstNonEmpty (g.map (·.number)),
   firstNonEmpty (g.map (·.pdes)), firstNonEmpty (g.map (·.name)),
   firstNonEmpty (g.map (·.diameter))⟩

/-- The merged key set: the keys of the eligible rows of both sources,
primary first (the `combine_first` index union; see the section comment on
ordering). -/
def mergedKeys (mpc neo : List Entity) : List String :=
  firstDedup ((eligibleRows mpc ++ eligibleRows neo).map matchKey)

/-- The merged row for the `p.1`-th key `p.2`: the column-wise combination of
every row with that key, with the fresh dense id written over `IDAsteroide`. -/
def mergedRowAt (all : List Entity) (p : Nat × String) : Entity :=
  { combineEntities (all.filter (fun e => matchKey e = p.2)) with
      idAst := toString (p.1 + 1) }

/-- `DataMerger.merge_asteroids`: key both sources, drop `"NAM_"` rows, align
on the key with `combine_first`, then overwrite `IDAsteroide` with dense new
ids 1..N in emission order. -/
def mergeAsteroids (mpc neo : List Entity) : List Entity :=
  (mergedKeys mpc neo).enum.map (mergedRowAt (eligibleRows mpc ++ eligibleRows neo))

/-- The old-id → new-id map emitted for one source
(`mpc_keys['match_key'].map(key_to_new_id)`): each eligible source row's old
id, paired with the 1-based position of its match key in the merged key list
(`New_IDAsteroide` is the row number of the merged frame). -/
def idMapOf (src mpc neo : List Entity) : List (String × String) :=
  (eligibleRows src).map (fun e =>
    (e.idAst,
     (((mergedKeys mpc neo).indexOf? (matchKey e)).map (fun i => toString (i + 1))).getD ""))

/-- An orbit row, restricted to its keys, one representative element column
`el` (the eccentricity string), and the class foreign key. -/
structure Orbit where
  idOrb : String
  idAst : String
  epoch : String
  el : String
  idClasse : String
deriving Repr, DecidableEq, Inhabited

/-- An observation row, restricted to its keys. -/
structure Observation where
  idObs : String
  idAst : String
  dataAtualizacao : String
deriving Repr, DecidableEq, Inhabited

/-- `_update_ids` core: `df[col].map(series).fillna(df[col])` — the new id
when the old id is in the map, the original (stale) id otherwise. -/
def remapId (m : Option (List (String × String))) (oldId : String) : String :=
  match m with
  | none => oldId
  | some mm => (mm.lookup oldId).getD oldId

/-- `_update_ids` on the orbit table (`column='IDAsteroide'`); a `none` map
returns the frame unchanged. -/
def updateIdsOrbits (rows : List Orbit) (m : Option (List (String × String))) : List Orbit :=
  match m with
  | none => rows
  | some mm => rows.map (fun r => { r with idAst := (mm.lookup r.idAst).getD r.idAst })

/-- `_update_ids` on the observation table. -/
def updateIdsObs (rows : List Observation) (m : Option (List (String × String))) :
    List Observation :=
  match m with
  | none => rows
  | some mm => rows.map (fun r => { r with idAst := (mm.lookup r.idAst).getD r.idAst })

/-- Per-source orbit preparation in `merge_orbits`: remap `IDAsteroide`, remap
`IDClasse` the same way when that map exists, drop `IDOrbita`. -/
def prepOrbitsSource (rows : List Orbit) (idMap clsMap : Option (List (String × String))) :
    List Orbit :=
  let r1 := updateIdsOrbits rows idMap
  let r2 : List Orbit :=
    match clsMap with
    | none => r1
    | some m => r1.map (fun r => { r with idClasse := (m.lookup r.idClasse).getD r.idClasse })
  r2.map (fun r => { r with idOrb := "" })

def orbitKey (r : Orbit) : String × String :=
  (r.idAst, r.epoch)

/-- Column-wise `groupby(['IDAsteroide','epoch']).first()` on one group. -/
def combineOrbits (g : List Orbit) : Orbit :=
  ⟨firstNonEmpty (g.map (·.idOrb)), firstNonEmpty (g.map (·.idAst)),
   firstNonEmpty (g.map (·.epoch)), firstNonEmpty (g.map (·.el)),
   firstNonEmpty (g.map (·.idClasse))⟩

/-- The concatenation of the two remapped sources (step 3 of `merge_orbits`). -/
def orbitsConcat (mpc neo : List Orbit)
    (mpcMap neoMap mpcCls neoCls : Option (List (String × String))) : List Orbit :=
  prepOrbitsSource mpc mpcMap mpcCls ++ prepOrbitsSource neo neoMap neoCls

/-- The surviving group keys: first-occurrence-deduplicated keys of the rows
with no missing key component. -/
def orbitGroupKeys (all : List Orbit) : List (String × String) :=
  firstDedup ((all.filter (fun r => r.idAst ≠ "" && r.epoch ≠ "")).map orbitKey)

/-- The merged orbit row for the `p.1`-th group key `p.2`. -/
def mergedOrbitAt (all : List Orbit) (p : Nat × (String × String)) : Orbit :=
  { combineOrbits (all.filter (fun r => orbitKey r = p.2)) with
      idOrb := toString (p.1 + 1) }

/-- `DataMerger.merge_orbits`: remap both sources, concatenate,
`groupby(['IDAsteroide','epoch'], as_index=False).first()` — which drops rows
whose key has a missing (NaN ↔ empty) component — then dense new `IDOrbita`
1..N. -/
def mergeOrbits (mpc neo : List Orbit)
    (mpcMap neoMap mpcCls neoCls : Option (List (String × String))) : List Orbit :=
  let all := orbitsConcat mpc neo mpcMap neoMap mpcCls neoCls
  (orbitGroupKeys all).enum.map (mergedOrbitAt all)

/-- `DataMerger.merge_observations`: remap both sources, concatenate, always
assign fresh sequential `IDObservacao` (no deduplication). -/
def mergeObservations (mpc neo : List Observation)
    (mpcMap neoMap : Option (List (String × String))) : List Observation :=
  let all := updateIdsObs mpc mpcMap ++ updateIdsObs neo neoMap
  all.enum.map (fun p => { p.2 with idObs := toString (p.1 + 1) })

/-! ### Helper lemmas -/

theorem isAlpha_not_isDigit {c : Char} (h : c.isAlpha = true) : c.isDigit = false := by
  have e48 : (UInt32.toBitVec 48).toNat = 48 := rfl
  have e57 : (UInt32.toBitVec 57).toNat = 57 := rfl
  have e65 : (UInt32.toBitVec 65).toNat = 65 := rfl
  have e90 : (UInt32.toBitVec 90).toNat = 90 := rfl
  have e97 : (UInt32.toBitVec 97).toNat = 97 := rfl
  have e122 : (UInt32.toBitVec 122).toNat = 122 := rfl
  simp only [Char.isAlpha, Char.isUpper, Char.isLower, Char.isDigit, Bool.or_eq_true,
    Bool.and_eq_true, Bool.and_eq_false_iff, decide_eq_true_eq, decide_eq_false_iff_not,
    not_le, UInt32.le_def, BitVec.le_def, e48, e57, e65, e90, e97, e122] at *
  omega

theorem string_append_left_inj {p a b : String} (h : p ++ a = p ++ b) : a = b := by
  have h2 := congrArg String.data h
  rw [String.data_append, String.data_append] at h2
  exact congrArg String.mk (List.append_cancel_left h2)

theorem num_key_ne_des_key (a b : String) : "NUM_" ++ a ≠ "DES_" ++ b := by
  intro h
  have h2 := congrArg String.data h
  rw [String.data_append, String.data_append] at h2
  simp at h2

theorem num_key_ne_nam_key (a b : String) : "NUM_" ++ a ≠ "NAM_" ++ b := by
  intro h
  have h2 := congrArg String.data h
  rw [String.data_append, String.data_append] at h2
  simp at h2

theorem des_key_ne_nam_key (a b : String) : "DES_" ++ a ≠ "NAM_" ++ b := by
  intro h
  have h2 := congrArg String.data h
  rw [String.data_append, String.data_append] at h2
  simp at h2

theorem date_format_ne_empty (a b c : String) : a ++ "-" ++ b ++ "-" ++ c ≠ "" := by
  intro h
  have h2 := congrArg String.data h
  rw [show ("" : String).data = [] from rfl] at h2
  simp [String.data_append] at h2

theorem firstNonEmpty_nil : firstNonEmpty [] = "" := rfl

theorem firstNonEmpty_cons_of_ne {a : String} (t : List String) (h : a ≠ "") :
    firstNonEmpty (a :: t) = a := by
  simp [firstNonEmpty, List.find?_cons, h]

theorem firstNonEmpty_eq_or_mem (l : List String) :
    firstNonEmpty l = "" ∨ firstNonEmpty l ∈ l := by
  unfold firstNonEmpty
  cases h : l.find? (fun s => s ≠ "") with
  | none => exact .inl rfl
  | some v => exact .inr (List.mem_of_find?_eq_some h)

theorem firstNonEmpty_singleton (a : String) : firstNonEmpty [a] = a := by
  by_cases h : a = ""
  · subst h; rfl
  · exact firstNonEmpty_cons_of_ne [] h

/-- If a string-valued normalization kills every list member, it kills the
combined value as well. -/
theorem norm_firstNonEmpty_eq_empty (f : String → String) (hf : f "" = "")
    {l : List String} (h : ∀ s ∈ l, f s = "") : f (firstNonEmpty l) = "" := by
  rcases firstNonEmpty_eq_or_mem l with h0 | hm
  · rw [h0, hf]
  · exact h _ hm

theorem mem_firstDedup {α : Type} [DecidableEq α] {a : α} {l : List α} :
    a ∈ firstDedup l ↔ a ∈ l := by
  simp [firstDedup, List.mem_dedup]

theorem nodup_firstDedup {α : Type} [DecidableEq α] (l : List α) :
    (firstDedup l).Nodup := by
  simp [firstDedup, List.nodup_reverse, List.nodup_dedup]

theorem firstDedup_eq_self {α : Type} [DecidableEq α] {l : List α} (h : l.Nodup) :
    firstDedup l = l := by
  unfold firstDedup
  rw [List.Nodup.dedup (List.nodup_reverse.mpr h), List.reverse_reverse]

/-- With pairwise-distinct images, filtering on the image of a member yields
exactly that member. -/
theorem filter_eq_singleton_of_nodup_map {α β : Type} [DecidableEq β]
    {l : List α} {f : α → β} (hf : (l.map f).Nodup) :
    ∀ x ∈ l, l.filter (fun y => f y = f x) = [x] := by
  induction l with
  | nil => intro x hx; cases hx
  | cons a t ih =>
    rw [List.map_cons, List.nodup_cons] at hf
    intro x hx
    rcases List.mem_cons.mp hx with rfl | hx
    · rw [List.filter_cons_of_pos (by simp)]
      have ht : t.filter (fun y => f y = f x) = [] := by
        rw [List.filter_eq_nil_iff]
        intro b hb
        simp only [decide_eq_true_eq]
        intro hfb
        exact hf.1 (hfb ▸ List.mem_map_of_mem f hb)
      rw [ht]
    · have hne : f a ≠ f x := by
        intro hfa
        exact hf.1 (hfa ▸ List.mem_map_of_mem f hx)
      rw [List.filter_cons_of_neg (by simpa using hne)]
      exact ih hf.2 x hx

theorem snd_mem_of_mem_enumFrom {α : Type} {p : Nat × α} :
    ∀ {n : Nat} {l : List α}, p ∈ l.enumFrom n → p.2 ∈ l := by
  intro n l
  induction l generalizing n with
  | nil => intro h; cases h
  | cons a t ih =>
    intro h
    rcases List.mem_cons.mp h with rfl | h
    · exact List.mem_cons_self _ _
    · exact List.mem_cons_of_mem _ (ih h)

theorem snd_mem_of_mem_enum {α : Type} {p : Nat × α} {l : List α}
    (h : p ∈ l.enum) : p.2 ∈ l :=
  snd_mem_of_mem_enumFrom h

theorem normNumber_ne_empty_field {s : String} (h : normNumber s ≠ "") : s ≠ "" :=
  fun hs => h (by rw [hs]; rfl)

theorem normText_ne_empty_field {s : String} (h : normText s ≠ "") : s ≠ "" :=
  fun hs => h (by rw [hs]; rfl)

/-- Combining a group of entity rows that share one match key yields a row
with that same match key (the per-column fill can only pick values whose
normalizations agree with the group key). -/
theorem matchKey_combine {g : List Entity} {k : String} (hne : g ≠ [])
    (hall : ∀ e ∈ g, matchKey e = k) : matchKey (combineEntities g) = k := by
  obtain ⟨e0, t, rfl⟩ := List.exists_cons_of_ne_nil hne
  have hk0 := hall e0 (List.mem_cons_self _ _)
  by_cases h1 : normNumber e0.number = ""
  · by_cases h2 : normText e0.pdes = ""
    · -- group key has the NAM_ shape
      rw [matchKey, if_neg (not_not_intro h1), if_neg (not_not_intro h2)] at hk0
      have hmem : ∀ e ∈ e0 :: t, normNumber e.number = "" ∧ normText e.pdes = "" ∧
          normText e.name = normText e0.name := by
        intro e he
        have hk := (hall e he).trans hk0.symm
        by_cases b1 : normNumber e.number = ""
        · by_cases b2 : normText e.pdes = ""
          · rw [matchKey, if_neg (not_not_intro b1), if_neg (not_not_intro b2)] at hk
            exact ⟨b1, b2, string_append_left_inj hk⟩
          · rw [matchKey, if_neg (not_not_intro b1), if_pos b2] at hk
            exact absurd hk (des_key_ne_nam_key _ _)
        · rw [matchKey, if_pos b1] at hk
          exact absurd hk (num_key_ne_nam_key _ _)
      have hnum : normNumber (combineEntities (e0 :: t)).number = "" := by
        apply norm_firstNonEmpty_eq_empty normNumber rfl
        intro s hs
        obtain ⟨e, he, rfl⟩ := List.mem_map.mp hs
        exact (hmem e he).1
      have hpdes : normText (combineEntities (e0 :: t)).pdes = "" := by
        apply norm_firstNonEmpty_eq_empty normText rfl
        intro s hs
        obtain ⟨e, he, rfl⟩ := List.mem_map.mp hs
        exact (hmem e he).2.1
      have hname : normText (combineEntities (e0 :: t)).name = normText e0.name := by
        by_cases h3 : normText e0.name = ""
        · rw [h3]
          apply norm_firstNonEmpty_eq_empty normText rfl
          intro s hs
          obtain ⟨e, he, rfl⟩ := List.mem_map.mp hs
          rw [(hmem e he).2.2, h3]
        · have hcn : (combineEntities (e0 :: t)).name = e0.name := by
            show firstNonEmpty ((e0 :: t).map (·.name)) = e0.name
            rw [List.map_cons]
            exact firstNonEmpty_cons_of_ne _ (normText_ne_empty_field h3)
          rw [hcn]
      rw [matchKey, if_neg (not_not_intro hnum), if_neg (not_not_intro hpdes), hname, hk0]
    · -- group key has the DES_ shape
      rw [matchKey, if_neg (not_not_intro h1), if_pos h2] at hk0
      have hmem : ∀ e ∈ e0 :: t, normNumber e.number = "" ∧
          normText e.pdes = normText e0.pdes := by
        intro e he
        have hk := (hall e he).trans hk0.symm
        by_cases b1 : normNumber e.number = ""
        · by_cases b2 : normText e.pdes = ""
          · rw [matchKey, if_neg (not_not_intro b1), if_neg (not_not_intro b2)] at hk
            exact absurd hk.symm (des_key_ne_nam_key _ _)
          · rw [matchKey, if_neg (not_not_intro b1), if_pos b2] at hk
            exact ⟨b1, string_append_left_inj hk⟩
        · rw [matchKey, if_pos b1] at hk
          exact absurd hk (num_key_ne_des_key _ _)
      have hnum : normNumber (combineEntities (e0 :: t)).number = "" := by
        apply norm_firstNonEmpty_eq_empty normNumber rfl
        intro s hs
        obtain ⟨e, he, rfl⟩ := List.mem_map.mp hs
        exact (hmem e he).1
      have hcp : (combineEntities (e0 :: t)).pdes = e0.pdes := by
        show firstNonEmpty ((e0 :: t).map (·.pdes)) = e0.pdes
        rw [List.map_cons]
        exact firstNonEmpty_cons_of_ne _ (normText_ne_empty_field h2)
      rw [matchKey, if_neg (not_not_intro hnum), hcp, if_pos h2, hk0]
  · -- group key has the NUM_ shape
    rw [matchKey, if_pos h1] at hk0
    have hmem : ∀ e ∈ e0 :: t, normNumber e.number = normNumber e0.number := by
      intro e he
      have hk := (hall e he).trans hk0.symm
      by_cases b1 : normNumber e.number = ""
      · by_cases b2 : normText e.pdes = ""
        · rw [matchKey, if_neg (not_not_intro b1), if_neg (not_not_intro b2)] at hk
          exact absurd hk.symm (num_key_ne_nam_key _ _)
        · rw [matchKey, if_neg (not_not_intro b1), if_pos b2] at hk
          exact absurd hk.symm (num_key_ne_des_key _ _)
      · rw [matchKey, if_pos b1] at hk
        exact string_append_left_inj hk
    have hcn : (combineEntities (e0 :: t)).number = e0.number := by
      show firstNonEmpty ((e0 :: t).map (·.number)) = e0.number
      rw [List.map_cons]
      exact firstNonEmpty_cons_of_ne _ (normNumber_ne_empty_field h1)
    rw [matchKey, hcn, if_pos h1, hk0]

theorem firstNonEmpty_cons_empty (t : List String) :
    firstNonEmpty ("" :: t) = firstNonEmpty t := by
  simp [firstNonEmpty, List.find?_cons]

theorem firstNonEmpty_of_all_eq :
    ∀ {l : List String} {v : String}, l ≠ [] → (∀ s ∈ l, s = v) → firstNonEmpty l = v := by
  intro l
  induction l with
  | nil => intro v h _; exact absurd rfl h
  | cons a t ih =>
    intro v _ h
    have ha : a = v := h a (List.mem_cons_self _ _)
    subst ha
    by_cases hv : a = ""
    · subst hv
      rw [firstNonEmpty_cons_empty]
      cases t with
      | nil => rfl
      | cons b t2 =>
        exact ih (by simp) (fun s hs => h s (List.mem_cons_of_mem _ hs))
    · exact firstNonEmpty_cons_of_ne _ hv

theorem combineEntities_singleton (e : Entity) : combineEntities [e] = e := by
  cases e
  simp [combineEntities, firstNonEmpty_singleton]

theorem eligible_mem_facts {l : List Entity} {e : Entity} (h : e ∈ eligibleRows l) :
    e ∈ l ∧ matchKey e ≠ "NAM_" := by
  have := List.mem_filter.mp h
  exact ⟨this.1, by simpa using this.2⟩

theorem mergedKeys_spec {mpc neo : List Entity} {k : String}
    (h : k ∈ mergedKeys mpc neo) :
    (∃ e ∈ eligibleRows mpc ++ eligibleRows neo, matchKey e = k) ∧ k ≠ "NAM_" := by
  rw [mergedKeys, mem_firstDedup] at h
  obtain ⟨e, he, rfl⟩ := List.mem_map.mp h
  refine ⟨⟨e, he, rfl⟩, ?_⟩
  rcases List.mem_append.mp he with h' | h'
  · exact (eligible_mem_facts h').2
  · exact (eligible_mem_facts h').2

theorem matchKey_mergedRowAt (all : List Entity) {p : Nat × String}
    (hg : ∃ e ∈ all, matchKey e = p.2) :
    matchKey (mergedRowAt all p) = p.2 := by
  obtain ⟨e, he, hke⟩ := hg
  have hne : all.filter (fun e => matchKey e = p.2) ≠ [] := by
    intro hnil
    have := List.filter_eq_nil_iff.mp hnil e he
    simp [hke] at this
  have hall : ∀ x ∈ all.filter (fun e => matchKey e = p.2), matchKey x = p.2 := by
    intro x hx
    simpa using (List.mem_filter.mp hx).2
  show matchKey (combineEntities (all.filter (fun e => matchKey e = p.2))) = p.2
  exact matchKey_combine hne hall

theorem mergeAsteroids_map_matchKey (mpc neo : List Entity) :
    (mergeAsteroids mpc neo).map matchKey = mergedKeys mpc neo := by
  rw [mergeAsteroids, List.map_map]
  have : ∀ p ∈ (mergedKeys mpc neo).enum,
      (matchKey ∘ mergedRowAt (eligibleRows mpc ++ eligibleRows neo)) p = Prod.snd p := by
    intro p hp
    have hk := snd_mem_of_mem_enum hp
    exact matchKey_mergedRowAt _ (mergedKeys_spec hk).1
  rw [List.map_congr_left this, List.enum_map_snd]

theorem eligible_merged_self (mpc neo : List Entity) :
    eligibleRows (mergeAsteroids mpc neo) = mergeAsteroids mpc neo := by
  rw [eligibleRows, List.filter_eq_self]
  intro e he
  have : matchKey e ∈ (mergeAsteroids mpc neo).map matchKey := List.mem_map_of_mem _ he
  rw [mergeAsteroids_map_matchKey] at this
  simpa using (mergedKeys_spec this).2

theorem set_idAst_eq_self {e : Entity} {v : String} (h : e.idAst = v) :
    { e with idAst := v } = e := by
  cases e
  cases h
  rfl

/-- Re-running `merge_asteroids` on its own output (with an empty second
source) reproduces the output exactly: keys are pairwise distinct and
non-`NAM_`, so no row is filtered, every group is a singleton, and the dense
ids are re-assigned identically. -/
theorem mergeAsteroids_self_merge (mpc neo : List Entity) :
    mergeAsteroids (mergeAsteroids mpc neo) [] = mergeAsteroids mpc neo := by
  have hkeys := mergeAsteroids_map_matchKey mpc neo
  have hnodup : ((mergeAsteroids mpc neo).map matchKey).Nodup := by
    rw [hkeys]; exact nodup_firstDedup _
  have helig := eligible_merged_self mpc neo
  have hmk : mergedKeys (mergeAsteroids mpc neo) [] = mergedKeys mpc neo := by
    rw [mergedKeys, show eligibleRows ([] : List Entity) = [] from rfl,
      List.append_nil, helig, hkeys]
    exact firstDedup_eq_self (hkeys ▸ hnodup)
  conv_lhs => rw [mergeAsteroids]
  rw [hmk, show eligibleRows ([] : List Entity) = [] from rfl, List.append_nil, helig]
  conv_rhs => rw [mergeAsteroids]
  apply List.map_congr_left
  intro p hp
  set x := mergedRowAt (eligibleRows mpc ++ eligibleRows neo) p with hx
  have hxm : x ∈ mergeAsteroids mpc neo := by
    rw [mergeAsteroids]
    exact List.mem_map_of_mem _ hp
  have hxk : matchKey x = p.2 :=
    matchKey_mergedRowAt _ (mergedKeys_spec (snd_mem_of_mem_enum hp)).1
  have hfilter : (mergeAsteroids mpc neo).filter (fun e => matchKey e = p.2) = [x] := by
    rw [← hxk]
    exact filter_eq_singleton_of_nodup_map hnodup x hxm
  rw [mergedRowAt, hfilter, combineEntities_singleton]
  exact set_idAst_eq_self rfl

theorem orbitKey_combine {g : List Orbit} {k : String × String} (hne : g ≠ [])
    (hall : ∀ r ∈ g, orbitKey r = k) : orbitKey (combineOrbits g) = k := by
  have h1 : firstNonEmpty (g.map (·.idAst)) = k.1 := by
    apply firstNonEmpty_of_all_eq (by simpa using hne)
    intro s hs
    obtain ⟨r, hr, rfl⟩ := List.mem_map.mp hs
    exact congrArg Prod.fst (hall r hr)
  have h2 : firstNonEmpty (g.map (·.epoch)) = k.2 := by
    apply firstNonEmpty_of_all_eq (by simpa using hne)
    intro s hs
    obtain ⟨r, hr, rfl⟩ := List.mem_map.mp hs
    exact congrArg Prod.snd (hall r hr)
  show (firstNonEmpty (g.map (·.idAst)), firstNonEmpty (g.map (·.epoch))) = k
  rw [h1, h2]

theorem orbitGroupKeys_spec {all : List Orbit} {k : String × String}
    (h : k ∈ orbitGroupKeys all) :
    (∃ r ∈ all, orbitKey r = k) ∧ k.1 ≠ "" ∧ k.2 ≠ "" := by
  rw [orbitGroupKeys, mem_firstDedup] at h
  obtain ⟨r, hr, rfl⟩ := List.mem_map.mp h
  have hm := List.mem_filter.mp hr
  have hcond := hm.2
  simp only [Bool.and_eq_true, decide_eq_true_eq] at hcond
  exact ⟨⟨r, hm.1, rfl⟩, hcond.1, hcond.2⟩

theorem orbitKey_mergedOrbitAt (all : List Orbit) {p : Nat × (String × String)}
    (hg : ∃ r ∈ all, orbitKey r = p.2) :
    orbitKey (mergedOrbitAt all p) = p.2 := by
  obtain ⟨r, hr, hkr⟩ := hg
  have hne : all.filter (fun r => orbitKey r = p.2) ≠ [] := by
    intro hnil
    have := List.filter_eq_nil_iff.mp hnil r hr
    simp [hkr] at this
  have hall : ∀ x ∈ all.filter (fun r => orbitKey r = p.2), orbitKey x = p.2 := by
    intro x hx
    simpa using (List.mem_filter.mp hx).2
  show orbitKey (combineOrbits (all.filter (fun r => orbitKey r = p.2))) = p.2
  exact orbitKey_combine hne hall

theorem mergeOrbits_map_key (mpc neo : List Orbit)
    (m1 m2 c1 c2 : Option (List (String × String))) :
    (mergeOrbits mpc neo m1 m2 c1 c2).map orbitKey
      = orbitGroupKeys (orbitsConcat mpc neo m1 m2 c1 c2) := by
  rw [mergeOrbits, List.map_map]
  have : ∀ p ∈ (orbitGroupKeys (orbitsConcat mpc neo m1 m2 c1 c2)).enum,
      (orbitKey ∘ mergedOrbitAt (orbitsConcat mpc neo m1 m2 c1 c2)) p = Prod.snd p := by
    intro p hp
    exact orbitKey_mergedOrbitAt _ (orbitGroupKeys_spec (snd_mem_of_mem_enum hp)).1
  rw [List.map_congr_left this, List.enum_map_snd]

/-! Processor state-preservation lemmas. -/

theorem refMapStep_preserves (st : ProcState) (name : String) :
    (refMapStep st name).seenIds = st.seenIds ∧
    (refMapStep st name).nextAsteroidId = st.nextAsteroidId ∧
    (refMapStep st name).nextObservationId = st.nextObservationId ∧
    (refMapStep st name).classMap = st.classMap ∧
    (refMapStep st name).nextClassId = st.nextClassId := by
  rw [refMapStep]
  split_ifs <;> exact ⟨rfl, rfl, rfl, rfl, rfl⟩

theorem updateRefMaps_preserves (names : List (Option String)) (st : ProcState) :
    (updateRefMaps names st).seenIds = st.seenIds ∧
    (updateRefMaps names st).nextAsteroidId = st.nextAsteroidId ∧
    (updateRefMaps names st).nextObservationId = st.nextObservationId ∧
    (updateRefMaps names st).classMap = st.classMap ∧
    (updateRefMaps names st).nextClassId = st.nextClassId := by
  rw [updateRefMaps]
  generalize firstDedup (names.filterMap id) = l
  induction l generalizing st with
  | nil => exact ⟨rfl, rfl, rfl, rfl, rfl⟩
  | cons a t ih =>
    rw [List.foldl_cons]
    obtain ⟨i1, i2, i3, i4, i5⟩ := ih (refMapStep st a)
    obtain ⟨s1, s2, s3, s4, s5⟩ := refMapStep_preserves st a
    exact ⟨i1.trans s1, i2.trans s2, i3.trans s3, i4.trans s4, i5.trans s5⟩

theorem classMapStep_preserves (st : ProcState) (name : String) :
    (classMapStep st name).seenIds = st.seenIds ∧
    (classMapStep st name).nextAsteroidId = st.nextAsteroidId ∧
    (classMapStep st name).nextObservationId = st.nextObservationId ∧
    (classMapStep st name).softwareMap = st.softwareMap ∧
    (classMapStep st name).astronomerMap = st.astronomerMap := by
  rw [classMapStep]
  split_ifs <;> exact ⟨rfl, rfl, rfl, rfl, rfl⟩

theorem updateClassMaps_preserves (vals : List (Option String)) (st : ProcState) :
    (updateClassMaps vals st).seenIds = st.seenIds ∧
    (updateClassMaps vals st).nextAsteroidId = st.nextAsteroidId ∧
    (updateClassMaps vals st).nextObservationId = st.nextObservationId ∧
    (updateClassMaps vals st).softwareMap = st.softwareMap ∧
    (updateClassMaps vals st).astronomerMap = st.astronomerMap := by
  rw [updateClassMaps]
  generalize firstDedup (vals.filterMap id) = l
  induction l generalizing st with
  | nil => exact ⟨rfl, rfl, rfl, rfl, rfl⟩
  | cons a t ih =>
    rw [List.foldl_cons]
    obtain ⟨i1, i2, i3, i4, i5⟩ := ih (classMapStep st a)
    obtain ⟨s1, s2, s3, s4, s5⟩ := classMapStep_preserves st a
    exact ⟨i1.trans s1, i2.trans s2, i3.trans s3, i4.trans s4, i5.trans s5⟩

theorem zip3_length {α β γ : Type} :
    ∀ (l : List α) (r1 : List β) (r2 : List γ), r1.length = l.length →
      r2.length = l.length → (l.zip (r1.zip r2)).length = l.length := by
  intro l r1 r2 h1 h2
  rw [List.length_zip, List.length_zip, h1, h2]
  omega

theorem zip3_map_fst {α β γ δ : Type} (f : α → δ) :
    ∀ (l : List α) (r1 : List β) (r2 : List γ), r1.length = l.length →
      r2.length = l.length → (l.zip (r1.zip r2)).map (fun p => f p.1) = l.map f := by
  intro l
  induction l with
  | nil => intro r1 r2 _ _; rfl
  | cons a t ih =>
    intro r1 r2 h1 h2
    cases r1 with
    | nil => cases h1
    | cons b t1 =>
      cases r2 with
      | nil => cases h2
      | cons c t2 =>
        simp only [List.zip_cons_cons, List.map_cons, List.cons.injEq, true_and]
        exact ih t1 t2 (by simpa using h1) (by simpa using h2)

theorem zip3_map_mid {α β γ : Type} :
    ∀ (l : List α) (r1 : List β) (r2 : List γ), r1.length = l.length →
      r2.length = l.length → (l.zip (r1.zip r2)).map (fun p => p.2.1) = r1 := by
  intro l
  induction l with
  | nil =>
    intro r1 r2 h1 _
    cases r1 with
    | nil => rfl
    | cons b t1 => cases h1
  | cons a t ih =>
    intro r1 r2 h1 h2
    cases r1 with
    | nil => cases h1
    | cons b t1 =>
      cases r2 with
      | nil => cases h2
      | cons c t2 =>
        simp only [List.zip_cons_cons, List.map_cons, List.cons.injEq, true_and]
        exact ih t1 t2 (by simpa using h1) (by simpa using h2)

theorem resolveChunk_next (st : ProcState) (chunk : List DecRec) :
    (resolveChunk st chunk).1.nextAsteroidId
      = st.nextAsteroidId
        + (chunk.filter (fun r => !st.seenIds.contains r.objId)).length := by
  simp only [resolveChunk]
  rw [(updateClassMaps_preserves _ _).2.1, (updateRefMaps_preserves _ _).2.1]

theorem resolveChunk_seen (st : ProcState) (chunk : List DecRec) :
    (resolveChunk st chunk).1.seenIds
      = st.seenIds
        ++ (chunk.filter (fun r => !st.seenIds.contains r.objId)).map DecRec.objId := by
  simp only [resolveChunk]
  rw [(updateClassMaps_preserves _ _).1, (updateRefMaps_preserves _ _).1]

theorem resolveChunk_out_length (st : ProcState) (chunk : List DecRec) :
    (resolveChunk st chunk).2.length
      = (chunk.filter (fun r => !st.seenIds.contains r.objId)).length := by
  simp only [resolveChunk]
  rw [List.length_map, zip3_length] <;> rw [List.length_range']

theorem resolveChunk_out_astIds (st : ProcState) (chunk : List DecRec) :
    (resolveChunk st chunk).2.map Emitted.astId
      = List.range' st.nextAsteroidId
          (chunk.filter (fun r => !st.seenIds.contains r.objId)).length := by
  simp only [resolveChunk]
  rw [List.map_map]
  have : (Emitted.astId ∘ fun p : DecRec × (Nat × Nat) => (⟨p.1.objId, p.2.1, p.2.2⟩ : Emitted))
      = fun p : DecRec × (Nat × Nat) => p.2.1 := rfl
  rw [this, zip3_map_mid] <;> rw [List.length_range']

theorem resolveChunk_out_objIds (st : ProcState) (chunk : List DecRec) :
    (resolveChunk st chunk).2.map Emitted.objId
      = (chunk.filter (fun r => !st.seenIds.contains r.objId)).map DecRec.objId := by
  simp only [resolveChunk]
  rw [List.map_map]
  have : (Emitted.objId ∘ fun p : DecRec × (Nat × Nat) => (⟨p.1.objId, p.2.1, p.2.2⟩ : Emitted))
      = fun p : DecRec × (Nat × Nat) => p.1.objId := rfl
  rw [this, zip3_map_fst] <;> rw [List.length_range']

theorem runBatches_ids :
    ∀ (bs : List (Except Unit (List DecRec))) (st : ProcState),
      (runBatches st bs).2.map Emitted.astId
        = List.range' st.nextAsteroidId (runBatches st bs).2.length
      ∧ (runBatches st bs).1.nextAsteroidId
        = st.nextAsteroidId + (runBatches st bs).2.length := by
  intro bs
  induction bs with
  | nil => intro st; exact ⟨rfl, by simp [runBatches]⟩
  | cons b t ih =>
    intro st
    match b with
    | .error e => exact ih st
    | .ok chunk =>
      obtain ⟨ih1, ih2⟩ := ih (resolveChunk st chunk).1
      have hn := resolveChunk_next st chunk
      have hl := resolveChunk_out_length st chunk
      have ha := resolveChunk_out_astIds st chunk
      show ((resolveChunk st chunk).2 ++ (runBatches (resolveChunk st chunk).1 t).2).map
            Emitted.astId
          = List.range' st.nextAsteroidId
              ((resolveChunk st chunk).2 ++ (runBatches (resolveChunk st chunk).1 t).2).length
        ∧ (runBatches (resolveChunk st chunk).1 t).1.nextAsteroidId
          = st.nextAsteroidId
            + ((resolveChunk st chunk).2 ++ (runBatches (resolveChunk st chunk).1 t).2).length
      refine ⟨?_, ?_⟩
      · rw [List.map_append, ha, ih1, hn, List.length_append, hl]
        have hr := List.range'_append st.nextAsteroidId
          (chunk.filter (fun r => !st.seenIds.contains r.objId)).length
          (runBatches (resolveChunk st chunk).1 t).2.length 1
        simp only [one_mul] at hr
        rw [hr]
        congr 1
        omega
      · rw [ih2, hn, List.length_append, hl]
        omega

theorem runBatches_skip_error :
    ∀ (bs1 : List (Except Unit (List DecRec))) (st : ProcState)
      (bs2 : List (Except Unit (List DecRec))),
      runBatches st (bs1 ++ Except.error () :: bs2) = runBatches st (bs1 ++ bs2) := by
  intro bs1
  induction bs1 with
  | nil => intro st bs2; rfl
  | cons b t ih =>
    intro st bs2
    match b with
    | .error e => exact ih st bs2
    | .ok chunk =>
      show ((runBatches (resolveChunk st chunk).1 (t ++ Except.error () :: bs2)).1,
            (resolveChunk st chunk).2
              ++ (runBatches (resolveChunk st chunk).1 (t ++ Except.error () :: bs2)).2)
          = _
      rw [ih (resolveChunk st chunk).1 bs2]
      rfl

theorem abs_roundHalfEven_sub_le (x : ℚ) : |((roundHalfEven x : ℤ) : ℚ) - x| ≤ 1 / 2 := by
  have h1 : ((⌊x⌋ : ℤ) : ℚ) ≤ x := Int.floor_le x
  have h2 : x < ((⌊x⌋ : ℤ) : ℚ) + 1 := Int.lt_floor_add_one x
  unfold roundHalfEven
  simp only []
  split_ifs with ha hb hc <;> push_cast <;> rw [abs_le] <;> constructor <;> linarith

theorem abs_roundQ_sub_le (p : Nat) (x : ℚ) : |roundQ p x - x| ≤ 1 / (10 : ℚ) ^ p := by
  have hp : (0 : ℚ) < (10 : ℚ) ^ p := by positivity
  have h := abs_roundHalfEven_sub_le (x * (10 : ℚ) ^ p)
  have hq : roundQ p x - x
      = (((roundHalfEven (x * (10 : ℚ) ^ p) : ℤ) : ℚ) - x * (10 : ℚ) ^ p) / (10 : ℚ) ^ p := by
    rw [roundQ]
    field_simp
    ring
  rw [hq, abs_div, abs_of_pos hp, div_le_div_iff₀ hp hp]
  nlinarith [abs_nonneg (((roundHalfEven (x * (10 : ℚ) ^ p) : ℤ) : ℚ) - x * (10 : ℚ) ^ p)]

/-! ### The claims -/

/-- C1: `_create_match_key` computes `NUM_<number stripped of leading zeros>`
when the normalized number is non-empty, else `DES_<upper-cased stripped
designation>` when non-empty, else `NAM_<upper-cased stripped name>`; numbers
`"001"` and `"1"` both give `"NUM_1"`, and a row whose key is exactly `"NAM_"`
is excluded from merge candidacy by the pre-grouping filter. -/
theorem matchKey_characterization :
    (∀ e : Entity, normNumber e.number ≠ "" → matchKey e = "NUM_" ++ normNumber e.number)
  ∧ (∀ e : Entity, normNumber e.number = "" → normText e.pdes ≠ "" →
      matchKey e = "DES_" ++ normText e.pdes)
  ∧ (∀ e : Entity, normNumber e.number = "" → normText e.pdes = "" →
      matchKey e = "NAM_" ++ normText e.name)
  ∧ matchKey ⟨"1", "001", "", "", ""⟩ = "NUM_1"
  ∧ matchKey ⟨"2", "1", "2020 AB", "Ceres", "0.5"⟩ = "NUM_1"
  ∧ (∀ (l : List Entity) (e : Entity), matchKey e = "NAM_" → e ∉ eligibleRows l) := by
  refine ⟨?_, ?_, ?_, ?_, ?_, ?_⟩
  · intro e h; rw [matchKey, if_pos h]
  · intro e h1 h2; rw [matchKey, if_neg (not_not_intro h1), if_pos h2]
  · intro e h1 h2; rw [matchKey, if_neg (not_not_intro h1), if_neg (not_not_intro h2)]
  · decide
  · decide
  · intro l e hk hm
    exact (eligible_mem_facts hm).2 hk

/-- Witness for C1 at concrete rows. -/
theorem matchKey_characterization_witness :
    matchKey ⟨"9", "042", "", "", ""⟩ = "NUM_" ++ normNumber "042"
  ∧ matchKey ⟨"9", "000", "2020 ab", "", ""⟩ = "DES_" ++ normText "2020 ab"
  ∧ matchKey ⟨"9", "", " ", "ceres", ""⟩ = "NAM_" ++ normText "ceres"
  ∧ (⟨"9", "", "", " ", ""⟩ : Entity) ∉ eligibleRows [⟨"9", "", "", " ", ""⟩] :=
  ⟨matchKey_characterization.1 _ (by decide),
   matchKey_characterization.2.1 _ (by decide) (by decide),
   matchKey_characterization.2.2.1 _ (by decide) (by decide),
   matchKey_characterization.2.2.2.2.2 _ _ (by decide)⟩

/-- C2: `_update_ids` replaces the entity foreign key when the old id is in
the source's map, keeps the original (stale) id when it is absent, changes no
other column, and removes no row — for both dependent tables. -/
theorem update_ids_orphan_policy :
    (∀ (rows : List Orbit) (mm : List (String × String)),
      (updateIdsOrbits rows (some mm)).length = rows.length
      ∧ List.Forall₂ (fun r r' : Orbit =>
          (∀ v, mm.lookup r.idAst = some v → r'.idAst = v)
          ∧ (mm.lookup r.idAst = none → r'.idAst = r.idAst)
          ∧ r'.idOrb = r.idOrb ∧ r'.epoch = r.epoch ∧ r'.el = r.el
          ∧ r'.idClasse = r.idClasse)
          rows (updateIdsOrbits rows (some mm)))
  ∧ (∀ (rows : List Observation) (mm : List (String × String)),
      (updateIdsObs rows (some mm)).length = rows.length
      ∧ List.Forall₂ (fun r r' : Observation =>
          (∀ v, mm.lookup r.idAst = some v → r'.idAst = v)
          ∧ (mm.lookup r.idAst = none → r'.idAst = r.idAst)
          ∧ r'.idObs = r.idObs ∧ r'.dataAtualizacao = r.dataAtualizacao)
          rows (updateIdsObs rows (some mm))) := by
  constructor
  · intro rows mm
    refine ⟨by rw [updateIdsOrbits, List.length_map], ?_⟩
    rw [updateIdsOrbits, List.forall₂_map_right_iff]
    rw [List.forall₂_same]
    intro r _
    refine ⟨?_, ?_, rfl, rfl, rfl, rfl⟩
    · intro v hv
      show ((mm.lookup r.idAst).getD r.idAst) = v
      rw [hv]; rfl
    · intro hv
      show ((mm.lookup r.idAst).getD r.idAst) = r.idAst
      rw [hv]; rfl
  · intro rows mm
    refine ⟨by rw [updateIdsObs, List.length_map], ?_⟩
    rw [updateIdsObs, List.forall₂_map_right_iff]
    rw [List.forall₂_same]
    intro r _
    refine ⟨?_, ?_, rfl, rfl⟩
    · intro v hv
      show ((mm.lookup r.idAst).getD r.idAst) = v
      rw [hv]; rfl
    · intro hv
      show ((mm.lookup r.idAst).getD r.idAst) = r.idAst
      rw [hv]; rfl

/-- Witness for C2: a mapped row is remapped, an orphan keeps its stale id. -/
theorem update_ids_orphan_policy_witness :
    (updateIdsOrbits [⟨"1", "10", "e", "x", "c"⟩, ⟨"2", "99", "e", "x", "c"⟩]
        (some [("10", "7")])).length = 2
  ∧ updateIdsOrbits [⟨"1", "10", "e", "x", "c"⟩, ⟨"2", "99", "e", "x", "c"⟩]
        (some [("10", "7")])
      = [⟨"1", "7", "e", "x", "c"⟩, ⟨"2", "99", "e", "x", "c"⟩] := by
  have h := (update_ids_orphan_policy.1
    [⟨"1", "10", "e", "x", "c"⟩, ⟨"2", "99", "e", "x", "c"⟩] [("10", "7")]).1
  exact ⟨h, by decide⟩

/-- C5: re-running `merge_asteroids` on its already-merged, already-
deduplicated output (with the second source exhausted) reproduces the output
exactly — in particular the row count and every row's MatchKey are unchanged. -/
theorem entity_resolver_idempotent (mpc neo : List Entity) :
    mergeAsteroids (mergeAsteroids mpc neo) [] = mergeAsteroids mpc neo
  ∧ (mergeAsteroids (mergeAsteroids mpc neo) []).length = (mergeAsteroids mpc neo).length
  ∧ (mergeAsteroids (mergeAsteroids mpc neo) []).map matchKey
      = (mergeAsteroids mpc neo).map matchKey :=
  ⟨mergeAsteroids_self_merge mpc neo,
   by rw [mergeAsteroids_self_merge],
   by rw [mergeAsteroids_self_merge]⟩

/-- Counterexample to C4 as stated: two orbit rows that share the pair
`("7", "")` (same entity id, missing epoch) are not collapsed to one output
row — `groupby` drops NaN-keyed rows, so the merged table is empty. -/
theorem merge_orbits_missing_epoch_cex :
    orbitKey ⟨"1", "7", "", "0.1", ""⟩ = orbitKey ⟨"2", "7", "", "0.2", ""⟩
  ∧ mergeOrbits [⟨"1", "7", "", "0.1", ""⟩, ⟨"2", "7", "", "0.2", ""⟩] []
      none none none none = [] := by
  exact ⟨rfl, rfl⟩

/-- C4 (amended): over the concatenated remapped sources, rows with a
non-missing (entity id, epoch) pair are collapsed to exactly one output row
per pair; rows with a missing key component are dropped by the grouping; the
pair is unique over the output; every output column is the group's first
non-empty value; and the output rows get dense orbit ids 1..N in order. -/
theorem merge_orbits_dedup_amended (mpc neo : List Orbit)
    (m1 m2 c1 c2 : Option (List (String × String))) :
    ((mergeOrbits mpc neo m1 m2 c1 c2).map orbitKey).Nodup
  ∧ (mergeOrbits mpc neo m1 m2 c1 c2).map Orbit.idOrb
      = (List.range (mergeOrbits mpc neo m1 m2 c1 c2).length).map (fun i => toString (i + 1))
  ∧ (∀ r ∈ orbitsConcat mpc neo m1 m2 c1 c2, r.idAst ≠ "" → r.epoch ≠ "" →
      ((mergeOrbits mpc neo m1 m2 c1 c2).filter
        (fun t => orbitKey t = orbitKey r)).length = 1)
  ∧ (∀ r ∈ orbitsConcat mpc neo m1 m2 c1 c2, r.idAst = "" ∨ r.epoch = "" →
      ∀ t ∈ mergeOrbits mpc neo m1 m2 c1 c2, orbitKey t ≠ orbitKey r)
  ∧ (∀ t ∈ mergeOrbits mpc neo m1 m2 c1 c2,
      t.el = firstNonEmpty (((orbitsConcat mpc neo m1 m2 c1 c2).filter
          (fun u => orbitKey u = orbitKey t)).map (·.el))
      ∧ t.idClasse = firstNonEmpty (((orbitsConcat mpc neo m1 m2 c1 c2).filter
          (fun u => orbitKey u = orbitKey t)).map (·.idClasse))) := by
  have hmap := mergeOrbits_map_key mpc neo m1 m2 c1 c2
  have hnodup : ((mergeOrbits mpc neo m1 m2 c1 c2).map orbitKey).Nodup := by
    rw [hmap]; exact nodup_firstDedup _
  refine ⟨hnodup, ?_, ?_, ?_, ?_⟩
  · rw [mergeOrbits, List.map_map, List.length_map]
    have h1 : (Orbit.idOrb ∘ mergedOrbitAt (orbitsConcat mpc neo m1 m2 c1 c2))
        = (fun i => toString (i + 1)) ∘ Prod.fst := rfl
    rw [h1, ← List.map_map, List.enum_map_fst, List.enum_length]
  · intro r hr h1 h2
    have hk : orbitKey r ∈ orbitGroupKeys (orbitsConcat mpc neo m1 m2 c1 c2) := by
      rw [orbitGroupKeys, mem_firstDedup]
      refine List.mem_map_of_mem _ (List.mem_filter.mpr ⟨hr, ?_⟩)
      simp [h1, h2]
    rw [← hmap] at hk
    obtain ⟨t, ht, htk⟩ := List.mem_map.mp hk
    rw [← htk]
    rw [filter_eq_singleton_of_nodup_map hnodup t ht]
    rfl
  · intro r hr hmiss t ht hkey
    have : orbitKey t ∈ orbitGroupKeys (orbitsConcat mpc neo m1 m2 c1 c2) := by
      rw [← hmap]
      exact List.mem_map_of_mem _ ht
    obtain ⟨-, hk1, hk2⟩ := orbitGroupKeys_spec this
    rw [hkey] at hk1 hk2
    rcases hmiss with h | h
    · exact hk1 h
    · exact hk2 h
  · intro t ht
    rw [mergeOrbits] at ht
    obtain ⟨p, hp, rfl⟩ := List.mem_map.mp ht
    have hkt : orbitKey (mergedOrbitAt (orbitsConcat mpc neo m1 m2 c1 c2) p) = p.2 :=
      orbitKey_mergedOrbitAt _ (orbitGroupKeys_spec (snd_mem_of_mem_enum hp)).1
    rw [hkt]
    exact ⟨rfl, rfl⟩

/-- Witness for C4 at a concrete instance: two rows sharing the valid pair
`("7", "2019-01-01")` merge to one row, filling `el` from the first
non-empty value. -/
theorem merge_orbits_dedup_amended_witness :
    ((mergeOrbits [⟨"1", "7", "2019-01-01", "", "5"⟩] [⟨"2", "7", "2019-01-01", "0.3", ""⟩]
        none none none none).filter
      (fun t => orbitKey t = orbitKey (⟨"", "7", "2019-01-01", "", "5"⟩ : Orbit))).length = 1
  ∧ mergeOrbits [⟨"1", "7", "2019-01-01", "", "5"⟩] [⟨"2", "7", "2019-01-01", "0.3", ""⟩]
      none none none none = [⟨"1", "7", "2019-01-01", "0.3", "5"⟩] := by
  refine ⟨?_, by decide⟩
  exact (merge_orbits_dedup_amended [⟨"1", "7", "2019-01-01", "", "5"⟩]
    [⟨"2", "7", "2019-01-01", "0.3", ""⟩] none none none none).2.2.1
    ⟨"", "7", "2019-01-01", "", "5"⟩ (by decide) (by decide) (by decide)

/-- C7: when the orchestrator resolves batches in submission order, each
batch drops exactly the records whose object id is already in the run-scoped
set, the survivors' ids are added to the set, the asteroid-id counter
advances by the surviving batch's size, and over the whole run the assigned
asteroid ids are precisely the contiguous gapless sequence
`1 .. total surviving records`, with no id reused. -/
theorem streaming_dense_ids (batches : List (Except Unit (List DecRec))) :
    (runBatches initState batches).2.map Emitted.astId
      = List.range' 1 (runBatches initState batches).2.length
  ∧ ((runBatches initState batches).2.map Emitted.astId).Nodup
  ∧ (runBatches initState batches).1.nextAsteroidId
      = (runBatches initState batches).2.length + 1
  ∧ (∀ (st : ProcState) (chunk : List DecRec),
      (resolveChunk st chunk).2.map Emitted.objId
        = (chunk.filter (fun r => !st.seenIds.contains r.objId)).map DecRec.objId
      ∧ (resolveChunk st chunk).1.seenIds
        = st.seenIds ++ (chunk.filter (fun r => !st.seenIds.contains r.objId)).map DecRec.objId
      ∧ (resolveChunk st chunk).1.nextAsteroidId
        = st.nextAsteroidId + (chunk.filter (fun r => !st.seenIds.contains r.objId)).length) := by
  obtain ⟨h1, h2⟩ := runBatches_ids batches initState
  refine ⟨h1, ?_, by rw [h2, show initState.nextAsteroidId = 1 from rfl]; omega, ?_⟩
  · rw [h1]
    exact List.nodup_range' _ _
  · intro st chunk
    exact ⟨resolveChunk_out_objIds st chunk, resolveChunk_seen st chunk,
      resolveChunk_next st chunk⟩

/-- C10: a batch whose worker transformation raised is caught while being
resolved, leaves every piece of run-scoped state (duplicate set, asteroid and
observation counters, software/astronomer/class dictionaries) exactly as it
was, and the remaining batches are processed as if the failed batch had never
been submitted. -/
theorem batch_failure_isolation :
    (∀ (st : ProcState) (e : Unit), runBatches st [Except.error e] = (st, []))
  ∧ (∀ (bs1 : List (Except Unit (List DecRec))) (st : ProcState)
      (bs2 : List (Except Unit (List DecRec))),
      runBatches st (bs1 ++ Except.error () :: bs2) = runBatches st (bs1 ++ bs2)) :=
  ⟨fun _ _ => rfl, runBatches_skip_error⟩

/-- Counterexample to C3 as stated: the packed date `"K194W"` decodes its day
character `'W'` to 32 and `"K1900"` decodes its month character to 0, yet the
codec emits the ISO strings instead of returning `""` — it performs no
month/day range validation. -/
theorem packed_date_validation_cex :
    unpackPackedDate (some "K194W") = "2019-04-32"
  ∧ unpackPackedDate (some "K194W") ≠ ""
  ∧ unpackPackedDate (some "K1900") = "2019-00-00" := by
  refine ⟨by decide, by decide, by decide⟩

/-- C3 (amended): for a 5-character packed date whose century character is
mapped, whose year characters parse, and whose month character resolves —
through the letter table (`A`/`B`/`C`) or through `int(month_char)` — the
codec emits `f"{year}-{month:02d}-{day:02d}"` verbatim with no range
validation of month or day (for a digit day and a non-digit day alike); and
the empty string is returned exactly when the century character is unmapped,
the year characters fail to parse, or the month character neither is mapped
nor parses as an integer. -/
theorem packed_date_no_range_check (c0 c1 c2 c3 c4 : Char) :
    (∀ (b : Nat) (yy mv : Int),
      CENTURY_MAP.lookup c0 = some b →
      pyInt? 10 ⟨[c1, c2]⟩ = some yy →
      monthOf? c3 = some mv →
      (c4.isDigit = true →
        unpackPackedDate (some ⟨[c0, c1, c2, c3, c4]⟩)
          = toString ((b : Int) + yy) ++ "-" ++ fmt02d mv ++ "-"
            ++ fmt02d ((c4.toNat - 48 : Nat) : Int))
      ∧ (c4.isDigit = false →
        unpackPackedDate (some ⟨[c0, c1, c2, c3, c4]⟩)
          = toString ((b : Int) + yy) ++ "-" ++ fmt02d mv ++ "-"
            ++ fmt02d ((c4.toNat : Int) - 65 + (DAY_MAP_OFFSET : Int))))
  ∧ (unpackPackedDate (some ⟨[c0, c1, c2, c3, c4]⟩) = ""
      ↔ CENTURY_MAP.lookup c0 = none ∨ pyInt? 10 ⟨[c1, c2]⟩ = none
        ∨ monthOf? c3 = none) := by
  constructor
  · intro b yy mv h0 h1 h2
    constructor
    · intro hd
      show unpackPackedDateChars [c0, c1, c2, c3, c4] = _
      rw [unpackPackedDateChars, h0, h1, h2, if_pos hd]
    · intro hd
      show unpackPackedDateChars [c0, c1, c2, c3, c4] = _
      rw [unpackPackedDateChars, h0, h1, h2, if_neg (by rw [hd]; exact Bool.false_ne_true)]
  · show unpackPackedDateChars [c0, c1, c2, c3, c4] = "" ↔ _
    rw [unpackPackedDateChars]
    cases h0 : CENTURY_MAP.lookup c0 with
    | none => simp
    | some b =>
      cases h1 : pyInt? 10 ⟨[c1, c2]⟩ with
      | none => simp
      | some yy =>
        cases h2 : monthOf? c3 with
        | none => simp
        | some mv =>
          constructor
          · intro h
            by_cases hd : c4.isDigit = true
            · rw [if_pos hd] at h
              exact absurd h (date_format_ne_empty _ _ _)
            · rw [if_neg hd] at h
              exact absurd h (date_format_ne_empty _ _ _)
          · intro h
            rcases h with h | h | h <;> simp at h

/-- Witness for the amended C3: a mapped month letter with a day letter past
`'V'` (`"K19AW"`, month 10, day 32), a digit month 0 with day 0 (`"K1900"`),
and an unmapped century character returning `""` (`"X194R"`). -/
theorem packed_date_no_range_check_witness :
    unpackPackedDate (some "K19AW") = "2019-10-32"
  ∧ unpackPackedDate (some "K1900") = "2019-00-00"
  ∧ unpackPackedDate (some "X194R") = "" :=
  ⟨(((packed_date_no_range_check 'K' '1' '9' 'A' 'W').1 2000 19 10
      (by decide) (by decide) (by decide)).2 (by decide)).trans (by decide),
   (((packed_date_no_range_check 'K' '1' '9' '0' '0').1 2000 19 0
      (by decide) (by decide) (by decide)).1 (by decide)).trans (by decide),
   (packed_date_no_range_check 'X' '1' '9' '4' 'R').2.mpr (Or.inl (by decide))⟩

/-- C6: for a 5-character packed designation with an alphabetic first
character and an all-digit remainder, the satellite condition (a planet code
followed by a final `'S'`) can never hold — the final character is a digit —
so the codec always returns the base-62 value of the leading letter times
10000 plus the numeric remainder, as a decimal string. -/
theorem unpack_designation_extended_numeric (c0 c1 c2 c3 c4 : Char)
    (h0 : c0.isAlpha = true)
    (hd : pyIsDigit [c1, c2, c3, c4] = true)
    (htrim : trimChars [c0, c1, c2, c3, c4] = [c0, c1, c2, c3, c4]) :
    ¬((PLANET_MAP.lookup c3).isSome ∧ c4 = 'S')
  ∧ unpackDesignation ⟨[c0, c1, c2, c3, c4]⟩
      = .ok (toString (base62Val c0 * 10000 + natOfDigits [c1, c2, c3, c4])) := by
  have hd4 : c4.isDigit = true := by
    simp only [pyIsDigit, List.all_cons, Bool.and_eq_true, List.all_nil] at hd
    exact hd.2.2.2.2.1
  have hc4S : c4 ≠ 'S' := by
    intro hS
    rw [hS] at hd4
    exact absurd hd4 (by decide)
  have hc0d : c0.isDigit = false := isAlpha_not_isDigit h0
  refine ⟨fun hc => hc4S hc.2, ?_⟩
  have hstrip : pyStrip ⟨[c0, c1, c2, c3, c4]⟩ = ⟨[c0, c1, c2, c3, c4]⟩ := by
    rw [pyStrip]
    exact congrArg String.mk htrim
  rw [unpackDesignation, hstrip]
  have hfull : pyIsDigit [c0, c1, c2, c3, c4] = false := by
    simp [pyIsDigit, hc0d]
  rw [show (⟨[c0, c1, c2, c3, c4]⟩ : String).data = [c0, c1, c2, c3, c4] from rfl, hfull]
  simp only [Bool.false_eq_true, if_false]
  have hc0t : c0 ≠ '~' := by
    intro ht
    rw [ht] at h0
    exact absurd h0 (by decide)
  rw [if_neg hc0t, if_pos (by rw [h0, hd]; rfl)]
  rw [if_neg (by rw [Bool.and_eq_true]; rintro ⟨hS, -⟩; exact hc4S (by simpa using hS))]

/-- Witness for C6: `"A0001"` decodes to `100001` (base-62 `'A'` = 10). -/
theorem unpack_designation_extended_numeric_witness :
    unpackDesignation "A0001" = .ok "100001" :=
  ((unpack_designation_extended_numeric 'A' '0' '0' '0' '1'
    (by decide) (by decide) (by decide)).2).trans (congrArg Except.ok (by decide))

/-- C8: on every record the worker emits q = round₈(a·(1−e)) and
ad = round₈(a·(1+e)) — within 10⁻⁸ of the exact products — per = 360/n
(rounded to 2 places) when n ≠ 0 and 0 when n = 0, with each element parsed
as a float defaulting to 0 on parse failure; when n = 0 the time-of-perihelion
field is the empty string. -/
theorem derived_elements_calculator (r : RawRec) (out : DecRec)
    (h : transformRecord r = .ok out) :
    out.q = roundQ 8 (aFloat r * (1 - eFloat r))
  ∧ |out.q - aFloat r * (1 - eFloat r)| ≤ 1 / (10 : ℚ) ^ 8
  ∧ out.ad = roundQ 8 (aFloat r * (1 + eFloat r))
  ∧ |out.ad - aFloat r * (1 + eFloat r)| ≤ 1 / (10 : ℚ) ^ 8
  ∧ (nFloat r ≠ 0 → out.per = roundQ 2 (360 / nFloat r))
  ∧ (nFloat r = 0 → out.per = 0)
  ∧ (nFloat r = 0 → out.tp = "")
  ∧ (r.eccentricity.bind parseFloat? = none → eFloat r = 0)
  ∧ (r.semiMajorAxis.bind parseFloat? = none → aFloat r = 0)
  ∧ (r.meanMotion.bind parseFloat? = none → nFloat r = 0)
  ∧ (r.meanAnomaly.bind parseFloat? = none → maFloat r = 0) := by
  have hout : out.q = qVal r ∧ out.ad = adVal r ∧ out.per = perVal r ∧ out.tp = tpOf r := by
    cases hobj : objIdOf r with
    | error e => rw [transformRecord, hobj] at h; cases h
    | ok oid =>
      cases hflag : flagBits r.hexFlags with
      | error e => rw [transformRecord, hobj, hflag] at h; cases h
      | ok bits =>
        rw [transformRecord, hobj, hflag] at h
        have := Except.ok.inj h
        rw [← this]
        exact ⟨rfl, rfl, rfl, rfl⟩
  obtain ⟨hq, had, hper, htp⟩ := hout
  refine ⟨hq, ?_, had, ?_, ?_, ?_, ?_, ?_, ?_, ?_, ?_⟩
  · rw [hq, qVal]; exact abs_roundQ_sub_le 8 _
  · rw [had, adVal]; exact abs_roundQ_sub_le 8 _
  · intro hn; rw [hper, perVal, if_neg hn]
  · intro hn
    rw [hper, perVal, if_pos hn]
    norm_num [roundQ, roundHalfEven]
  · intro hn; rw [htp, tpOf, tpField, if_pos hn]
  · intro hp; rw [eFloat, hp]; rfl
  · intro hp; rw [aFloat, hp]; rfl
  · intro hp; rw [nFloat, hp]; rfl
  · intro hp; rw [maFloat, hp]; rfl

/-- Witness for C8 at the claim's instance: e = 0.2, a = 2.0 gives q = 1.6 and
ad = 2.4 exactly; n = 0 gives per = 0 and tp = "". -/
theorem derived_elements_calculator_witness :
    ∃ out : DecRec,
      transformRecord ⟨some "433", none, some "K194R", some "0.2", some "2.0", some "0",
          some "10", some "0000", none⟩ = .ok out
      ∧ out.q = 8 / 5 ∧ out.ad = 12 / 5 ∧ out.per = 0 ∧ out.tp = "" := by
  have h8 : transformRecord ⟨some "433", none, some "K194R", some "0.2", some "2.0",
      some "0", some "10", some "0000", none⟩
      = .ok ⟨"433", "2019-04-27", 8 / 5, 12 / 5, 0, none, false, false, false, false,
        false, "", none⟩ := by
    with_unfolding_all rfl
  have hthm := derived_elements_calculator _ _ h8
  refine ⟨_, h8, ?_, ?_, ?_, ?_⟩
  · exact hthm.1.trans (by with_unfolding_all rfl)
  · exact hthm.2.2.1.trans (by with_unfolding_all rfl)
  · exact hthm.2.2.2.2.2.1 (by with_unfolding_all rfl)
  · exact hthm.2.2.2.2.2.2.1 (by with_unfolding_all rfl)

/-- Counterexample to C9 as stated: the 4-character malformed value `"WXYZ"`
is not treated as `0x0000` — `int(x, 16)` raises and the whole chunk fails. -/
theorem orbit_flag_malformed_cex :
    flagBits (some "WXYZ") = .error ()
  ∧ transformRecord ⟨some "433", none, none, none, none, none, none, some "WXYZ", none⟩
      = .error () :=
  ⟨rfl, rfl⟩

/-- C9 (amended): an absent cell or a string of length ≠ 4 decodes to
`0x0000`; a 4-character string is parsed as a hexadecimal integer (Python
semantics; failures raise and drop the batch); the flag bits are extracted as
orbit class = value AND 0x3F via the 10-entry table, NEO = 0x0800,
1-km-NEO = 0x1000, single-opposition = 0x2000, critical-list = 0x4000,
PHA = 0x8000; `"8800"` sets exactly PHA and NEO with orbit-class bits 0. -/
theorem orbit_flag_decoder_amended :
    flagBits none = .ok 0
  ∧ (∀ s : String, s.data.length ≠ 4 → flagBits (some s) = .ok 0)
  ∧ (∀ (s : String) (v : Int), s.data.length = 4 → pyInt? 16 s = some v →
      flagBits (some s) = .ok ((v % (2 : Int) ^ 32).toNat))
  ∧ (∀ (r : RawRec) (out : DecRec), transformRecord r = .ok out →
      ∃ bits, flagBits r.hexFlags = .ok bits
        ∧ out.orbitClass = ORBIT_TYPES.lookup (bits &&& MASK_ORBIT_TYPE)
        ∧ out.isNeoFlag = decide (bits &&& MASK_NEO ≠ 0)
        ∧ out.is1kmNeo = decide (bits &&& MASK_1KM_NEO ≠ 0)
        ∧ out.isOppEarlier = decide (bits &&& MASK_1_OPPOSITION ≠ 0)
        ∧ out.isCritical = decide (bits &&& MASK_CRITICAL_LIST ≠ 0)
        ∧ out.isPhaFlag = decide (bits &&& MASK_PHA ≠ 0))
  ∧ (flagBits (some "8800") = .ok 0x8800
      ∧ 0x8800 &&& MASK_ORBIT_TYPE = 0
      ∧ 0x8800 &&& MASK_NEO ≠ 0 ∧ 0x8800 &&& MASK_PHA ≠ 0
      ∧ 0x8800 &&& MASK_1KM_NEO = 0 ∧ 0x8800 &&& MASK_1_OPPOSITION = 0
      ∧ 0x8800 &&& MASK_CRITICAL_LIST = 0) := by
  refine ⟨rfl, ?_, ?_, ?_, by decide, by decide, by decide, by decide, by decide,
    by decide, by decide⟩
  · intro s hlen
    rw [flagBits, hexFlagsVal, if_neg hlen]
    rfl
  · intro s v hlen hv
    rw [flagBits, hexFlagsVal, if_pos hlen, hv]
    rfl
  · intro r out h
    cases hobj : objIdOf r with
    | error e => rw [transformRecord, hobj] at h; cases h
    | ok oid =>
      cases hflag : flagBits r.hexFlags with
      | error e => rw [transformRecord, hobj, hflag] at h; cases h
      | ok bits =>
        rw [transformRecord, hobj, hflag] at h
        have := Except.ok.inj h
        rw [← this]
        exact ⟨bits, rfl, rfl, rfl, rfl, rfl, rfl, rfl⟩

/-- Witness for the amended C9: a short string defaults to 0, `"8800"` parses
to 0x8800. -/
theorem orbit_flag_decoder_amended_witness :
    flagBits (some "88") = .ok 0
  ∧ flagBits (some "8800") = .ok ((0x8800 % (2 : Int) ^ 32).toNat) :=
  ⟨orbit_flag_decoder_amended.2.1 "88" (by decide),
   orbit_flag_decoder_amended.2.2.1 "8800" 0x8800 (by decide) (by decide)⟩

end TBD
